import Mathlib

/-!
Verification development for the `BrickBreaker` animation
(`src/animation.py`): a deterministic 2D brick-breaker game simulated
once per tick and rendered onto a fixed catalog of N point lights.

Shallow embedding conventions:
* Python floats are modelled as exact rationals (`ℚ`); decimal literals
  in the source become the corresponding exact rational literals.
* The constant `np.pi` is a concrete IEEE-754 double in the source; it is
  modelled by the exact rational value `npPi` of that double.
* The source class `BrickBreaker` splits into an immutable `Config`
  (constructor-derived constants) and a mutable `GameState` (the fields
  mutated tick by tick).  The per-tick entry point
  `BrickBreaker.renderNextFrame` becomes the state transition
  `renderNextFrame : Config → GameState → GameState` together with the
  frame-buffer computation `renderNextFrameBuf`.
* The projection engine (`_get_visible_face_coordinates`) and the external
  HSV→RGB conversion involve transcendental functions; the frame-buffer
  claims quantified here hold for every value of those quantities, so they
  are passed in as an abstract `Oracle` (per-point visibility, projected
  horizontal coordinate, and the HSV→RGB output used by the win effect).
-/

/-- Exact rational value of the IEEE-754 double `np.pi`
(`3.141592653589793115997963...`). -/
def npPi : ℚ := 884279719003555 / 281474976710656

/-- The source's `2 * np.pi`. -/
def twoPi : ℚ := 2 * npPi

/-- Rotation-angle wrap from the top of `renderNextFrame`:
subtract `2π` when the angle exceeds `2π`, add `2π` when negative. -/
def wrapAngle (a : ℚ) : ℚ :=
  if twoPi < a then a - twoPi else if a < 0 then a + twoPi else a

/-- `np.clip(x, lo, hi)`: clamp below to `lo`, then above to `hi`. -/
def clip (x lo hi : ℚ) : ℚ := min (max x lo) hi

/-- The fixed ball collision radius (`self.ball_radius = 0.05`). -/
def ballRadius : ℚ := 0.05

/-- The fixed paddle collision-zone height (`collision_height = 0.04`). -/
def collisionHeight : ℚ := 0.04

/-- One brick: the member light indices, the mutable `active` flag and the
immutable spatial bounding box used for collision detection.  The source
also stores `z_center`/`y_center`, which are never read afterwards and are
omitted here. -/
structure Brick where
  indices : List ℕ
  active : Bool
  z_lo : ℚ
  z_hi : ℚ
  y_lo : ℚ
  y_hi : ℚ
  deriving DecidableEq

/-- Constructor-derived immutable quantities of `BrickBreaker.__init__`:
the numeric knobs, the wall positions, the paddle row, the per-point
vertical coordinates of the catalog and the derived row spacing / vertical
extent.  `numPoints` is `len(POINTS_3D)`; `z j` is the centered vertical
coordinate of point `j`. -/
structure Config where
  ball_speed : ℚ
  paddle_speed : ℚ
  paddle_width : ℚ
  rotation_speed : ℚ
  left_wall : ℚ
  right_wall : ℚ
  top_wall : ℚ
  bottom : ℚ
  paddle_z : ℚ
  z_row_spacing : ℚ
  z_lo : ℚ
  z_hi : ℚ
  numPoints : ℕ
  z : ℕ → ℚ

/-- The mutable game state of the `BrickBreaker` object. -/
structure GameState where
  rotation_angle : ℚ
  game_count : ℕ
  paddle_y : ℚ
  ball_y : ℚ
  ball_z : ℚ
  ball_vy : ℚ
  ball_vz : ℚ
  bricks : List Brick
  won : Bool
  lost : Bool
  win_animation_frames : ℕ
  loss_animation_frames : ℕ
  ball_fall_count : ℕ
  last_brick_hit : ℤ
  brick_hit_cooldown : ℕ
  frame_count : ℕ
  deriving DecidableEq

/-- `_move_paddle`: track the ball with a `0.02` dead zone, then clamp the
paddle center so the paddle span stays inside the walls. -/
def move_paddle (cfg : Config) (s : GameState) : GameState :=
  let tracked : ℚ :=
    if s.paddle_y + 0.02 < s.ball_y then s.paddle_y + cfg.paddle_speed
    else if s.ball_y < s.paddle_y - 0.02 then s.paddle_y - cfg.paddle_speed
    else s.paddle_y
  { s with paddle_y := clip tracked (cfg.left_wall + cfg.paddle_width / 2) (cfg.right_wall - cfg.paddle_width / 2) }

/-- Ball integration plus wall collisions (the first half of `_move_ball`):
`position += velocity`; reflect `vy` and clamp `y` when crossing the left or
right wall; reflect `vz` and clamp `z` to the top wall. -/
def wallStep (cfg : Config) (s : GameState) : GameState :=
  { s with
    ball_y :=
      if s.ball_y + s.ball_vy ≤ cfg.left_wall ∨ cfg.right_wall ≤ s.ball_y + s.ball_vy
      then clip (s.ball_y + s.ball_vy) cfg.left_wall cfg.right_wall
      else s.ball_y + s.ball_vy
    ball_vy :=
      if s.ball_y + s.ball_vy ≤ cfg.left_wall ∨ cfg.right_wall ≤ s.ball_y + s.ball_vy
      then -s.ball_vy else s.ball_vy
    ball_z :=
      if cfg.top_wall ≤ s.ball_z + s.ball_vz then cfg.top_wall
      else s.ball_z + s.ball_vz
    ball_vz :=
      if cfg.top_wall ≤ s.ball_z + s.ball_vz then -s.ball_vz else s.ball_vz }

/-- The paddle collision guard of `_move_ball`: vertical position within
`[paddle_z - ball_radius, paddle_z + collision_height]` and horizontal
distance to the paddle center strictly below half the paddle width. -/
def paddleHit (cfg : Config) (s : GameState) : Prop :=
  s.ball_z ≤ cfg.paddle_z + collisionHeight ∧
  cfg.paddle_z - ballRadius ≤ s.ball_z ∧
  |s.ball_y - s.paddle_y| < cfg.paddle_width / 2

instance (cfg : Config) (s : GameState) : Decidable (paddleHit cfg s) := by
  unfold paddleHit; infer_instance

/-- The paddle collision response of `_move_ball`: force the vertical
velocity upward and set the horizontal velocity from the normalized hit
offset. -/
def paddleStep (cfg : Config) (s : GameState) : GameState :=
  { s with
    ball_vz := if paddleHit cfg s then |s.ball_vz| else s.ball_vz
    ball_vy :=
      if paddleHit cfg s
      then (s.ball_y - s.paddle_y) / (cfg.paddle_width / 2) * cfg.ball_speed
      else s.ball_vy }

/-- The brick collision test of `_move_ball`: the ball position lies in the
brick's bounding box expanded by `0.03` vertically and `0.05`
horizontally. -/
def inBrickBox (b : Brick) (y z : ℚ) : Prop :=
  b.z_lo - 0.03 ≤ z ∧ z ≤ b.z_hi + 0.03 ∧ b.y_lo - 0.05 ≤ y ∧ y ≤ b.y_hi + 0.05

instance (b : Brick) (y z : ℚ) : Decidable (inBrickBox b y z) := by
  unfold inBrickBox; infer_instance

/-- Index (offset by `i`) of the first active brick whose expanded box
contains the ball, scanning in list order — the `for ... break` loop of
`_move_ball`. -/
def hitScan (y z : ℚ) : List Brick → ℕ → Option ℕ
  | [], _ => none
  | b :: bs, i =>
      if b.active = true ∧ inBrickBox b y z then some i else hitScan y z bs (i + 1)

/-- Index of the first active brick hit by the ball, if any. -/
def hitIndex (bricks : List Brick) (y z : ℚ) : Option ℕ := hitScan y z bricks 0

/-- Clear the `active` flag of the brick at position `i`. -/
def deactivate : List Brick → ℕ → List Brick
  | [], _ => []
  | b :: bs, 0 => { b with active := false } :: bs
  | b :: bs, n + 1 => b :: deactivate bs n

/-- The brick collision block of `_move_ball`: while the hit cooldown is
positive just decrement it; otherwise deactivate the first active brick
containing the ball, negate the vertical velocity, record the hit index and
set the cooldown to `5`. -/
def brickStep (s : GameState) : GameState :=
  if 0 < s.brick_hit_cooldown then
    { s with brick_hit_cooldown := s.brick_hit_cooldown - 1 }
  else
    match hitIndex s.bricks s.ball_y s.ball_z with
    | none => s
    | some i =>
        { s with
          bricks := deactivate s.bricks i
          ball_vz := -s.ball_vz
          last_brick_hit := (i : ℤ)
          brick_hit_cooldown := 5 }

/-- `_reset_ball`: put the ball on the paddle, `0.1` above the paddle row,
moving upward.  The horizontal velocity is left untouched. -/
def reset_ball (cfg : Config) (s : GameState) : GameState :=
  { s with
    ball_y := s.paddle_y
    ball_z := cfg.paddle_z + 0.1
    ball_vz := |s.ball_vz| }

/-- The fall-handling block of `_move_ball`: when the ball ends more than
`0.1` below the bottom wall, either count the fall (entering the lost state
on every third fall) or, when a win/loss is already flagged, just
respawn. -/
def fallStep (cfg : Config) (s : GameState) : GameState :=
  if s.ball_z < cfg.bottom - 0.1 then
    if s.won = false ∧ s.lost = false then
      if (s.ball_fall_count + 1) % 3 = 0 then
        { s with
          ball_fall_count := s.ball_fall_count + 1
          lost := true
          loss_animation_frames := 0 }
      else reset_ball cfg { s with ball_fall_count := s.ball_fall_count + 1 }
    else reset_ball cfg s
  else s

/-- The win-condition block of `_move_ball`: when no brick is active and the
win is not already flagged, enter the won state. -/
def winStep (s : GameState) : GameState :=
  if s.bricks.any (·.active) = false ∧ s.won = false then
    { s with won := true, win_animation_frames := 0 }
  else s

/-- `_move_ball`: integration, wall, paddle and brick collisions, fall
handling and win detection, in source order. -/
def move_ball (cfg : Config) (s : GameState) : GameState :=
  winStep (fallStep cfg (brickStep (paddleStep cfg (wallStep cfg s))))

/-- One simulation step of the playing state: `_move_paddle` then
`_move_ball`. -/
def simStep (cfg : Config) (s : GameState) : GameState :=
  move_ball cfg (move_paddle cfg s)

/-- `_reset_game`: reactivate every brick, respawn the ball, clear all
flags and counters, advance the game count and rotate to the face
`(2π / 6) * (game_count mod 6)`. -/
def reset_game (cfg : Config) (s : GameState) : GameState :=
  { s with
    bricks := s.bricks.map fun b => { b with active := true }
    ball_y := s.paddle_y
    ball_z := cfg.paddle_z + 0.1
    ball_vz := |s.ball_vz|
    won := false
    lost := false
    win_animation_frames := 0
    loss_animation_frames := 0
    ball_fall_count := 0
    last_brick_hit := -1
    brick_hit_cooldown := 0
    game_count := s.game_count + 1
    rotation_angle := 2 * npPi / 6 * (((s.game_count + 1) % 6 : ℕ) : ℚ) }

/-- The win-animation block of `renderNextFrame` and everything after it:
when the win flag is set, bump the animation counter and either reset (and
fall through to a simulation step) after 90 frames or stop at the win
effect; when the flag is clear, run the simulation step. -/
def winPhase (cfg : Config) (s : GameState) : GameState :=
  if s.won = true then
    if 90 ≤ s.win_animation_frames + 1 then
      simStep cfg (reset_game cfg { s with win_animation_frames := s.win_animation_frames + 1 })
    else { s with win_animation_frames := s.win_animation_frames + 1 }
  else simStep cfg s

/-- State transition of the per-tick entry point `renderNextFrame`: bump
the frame counter, advance and wrap the rotation angle, then run the
loss-animation block, the win-animation block and (when not animating) the
game simulation, in source order. -/
def renderNextFrame (cfg : Config) (s : GameState) : GameState :=
  let s1 := { s with
    frame_count := s.frame_count + 1
    rotation_angle := wrapAngle (s.rotation_angle + cfg.rotation_speed) }
  if s1.lost = true then
    if 120 ≤ s1.loss_animation_frames + 1 then
      winPhase cfg (reset_game cfg { s1 with loss_animation_frames := s1.loss_animation_frames + 1 })
    else { s1 with loss_animation_frames := s1.loss_animation_frames + 1 }
  else winPhase cfg s1

/-- An RGB triple of the output frame buffer; channel values are the
integers written by the source's `uint8` stores. -/
abbrev RGB := ℤ × ℤ × ℤ

/-- Background color `[5, 5, 20]`. -/
def bgColor : RGB := (5, 5, 20)

/-- Paddle color `[255, 255, 255]`. -/
def paddleColor : RGB := (255, 255, 255)

/-- Ball color `[255, 255, 0]`. -/
def ballColor : RGB := (255, 255, 0)

/-- Brick palette: red for even brick indices, green for odd ones
(`brick_colors[i % 2]`). -/
def brickColor (i : ℕ) : RGB := if i % 2 = 0 then (255, 0, 0) else (0, 255, 0)

/-- Per-tick quantities the frame compositor consumes but whose
computation is transcendental (rotation-dependent projection) or external
to `src` (`utils.colors.hsv_to_rgb_numpy`).  `visible`/`projY` are the
outputs of `_get_visible_face_coordinates`; `winRGB` is modelled from the
spec: the out-of-scope vectorized HSV→RGB conversion used by
`_render_win_celebration`, whose output channels lie in `[0, 1]`. -/
structure Oracle where
  visible : ℕ → Bool
  projY : ℕ → ℚ
  winRGB : ℕ → ℚ × ℚ × ℚ

/-- Write color `c` at every index of `idxs` (the per-brick light
stores `frameBuf[light_idx] = color`). -/
def writeIdxs (buf : List RGB) (idxs : List ℕ) (c : RGB) : List RGB :=
  idxs.foldl (fun b j => b.set j c) buf

/-- Draw every active brick over the buffer, alternating the palette by
brick index. -/
def drawBricks (buf : List RGB) : List Brick → ℕ → List RGB
  | [], _ => buf
  | b :: bs, i =>
      drawBricks (if b.active = true then writeIdxs buf b.indices (brickColor i) else buf) bs (i + 1)

/-- Masked whole-buffer store `frameBuf[mask] = c`: replace entry `j` by `c`
whenever `mask j` holds. -/
def maskStore (mask : ℕ → Bool) (c : RGB) (buf : List RGB) : List RGB :=
  (buf.zip (List.range buf.length)).map fun p => if mask p.2 then c else p.1

/-- The paddle mask of the playing-state compositor: visible, horizontally
within half the paddle width of the paddle center, and vertically within
`max(1.5 * row_spacing, 0.03)` of the paddle row. -/
def paddleMask (cfg : Config) (orc : Oracle) (s : GameState) (j : ℕ) : Bool :=
  orc.visible j &&
  decide (|orc.projY j - s.paddle_y| < cfg.paddle_width / 2) &&
  decide (|cfg.z j - cfg.paddle_z| < max (cfg.z_row_spacing * 1.5) 0.03)

/-- The ball mask of the playing-state compositor: visible and within the
ball radius of the ball in projected-horizontal/actual-vertical space.  The
source compares `sqrt(dy² + dz²) < radius`; with `radius > 0` this is
equivalent to the squared comparison used here. -/
def ballMask (cfg : Config) (orc : Oracle) (s : GameState) (j : ℕ) : Bool :=
  orc.visible j &&
  decide ((orc.projY j - s.ball_y) ^ 2 + (cfg.z j - s.ball_z) ^ 2 < ballRadius ^ 2)

/-- The playing-state frame compositor: background fill, then active
bricks, then the paddle mask, then the ball mask, later draws overwriting
earlier ones.  `s` is the game state after the simulation step of the
tick. -/
def playingBuf (cfg : Config) (orc : Oracle) (s : GameState) : List RGB :=
  maskStore (ballMask cfg orc s) ballColor
    (maskStore (paddleMask cfg orc s) paddleColor
      (drawBricks (List.replicate cfg.numPoints bgColor) s.bricks 0))

/-- Truncating store of a nonnegative in-range float into a `uint8`
channel (`.astype(np.uint8)` truncates toward zero, i.e. takes the floor
on nonnegative values). -/
def toUint8 (x : ℚ) : ℤ := ⌊x⌋

/-- Per-point brightness of `_render_loss_effect` at animation frame
`frames`: a white wash whose front moves down with progress, with a `0.15`
transition band, clamped to `[0, 1]`. -/
def lossBrightness (cfg : Config) (frames : ℕ) (j : ℕ) : ℚ :=
  let progress : ℚ := (frames : ℚ) / 120
  let z_normalized : ℚ := (cfg.z j - cfg.z_lo) / (cfg.z_hi - cfg.z_lo)
  let z_from_top : ℚ := 1 - z_normalized
  let wash_position : ℚ := progress * (1 + 0.15)
  clip (1 - (wash_position - z_from_top) / 0.15) 0 1

/-- The loss-effect buffer: white scaled per point by the wash
brightness. -/
def lossBuf (cfg : Config) (frames : ℕ) : List RGB :=
  (List.range cfg.numPoints).map fun j =>
    (toUint8 (255 * lossBrightness cfg frames j),
     toUint8 (255 * lossBrightness cfg frames j),
     toUint8 (255 * lossBrightness cfg frames j))

/-- The win-celebration buffer: the HSV→RGB output of the effect (supplied
by the oracle, one triple in `[0,1]³` per point) scaled by 255 and stored
as `uint8`. -/
def winBuf (cfg : Config) (orc : Oracle) : List RGB :=
  (List.range cfg.numPoints).map fun j =>
    (toUint8 ((orc.winRGB j).1 * 255),
     toUint8 ((orc.winRGB j).2.1 * 255),
     toUint8 ((orc.winRGB j).2.2 * 255))

/-- Frame-buffer output of the per-tick entry point `renderNextFrame`,
mirroring its control flow: the loss effect while the loss animation runs,
the win effect while the win animation runs, and otherwise (including the
tick that completes an animation and resets) the playing-state
compositor applied to the post-simulation state. -/
def renderNextFrameBuf (cfg : Config) (orc : Oracle) (s : GameState) : List RGB :=
  if s.lost = true ∧ s.loss_animation_frames + 1 < 120 then
    lossBuf cfg (s.loss_animation_frames + 1)
  else if s.lost = false ∧ s.won = true ∧ s.win_animation_frames + 1 < 90 then
    winBuf cfg orc
  else
    playingBuf cfg orc (renderNextFrame cfg s)

/-- Constructor-established facts about the initial game state that the
reachability arguments use: play starts in the `Playing` state with every
brick active, at least one brick, zeroed counters, and every brick's
collision band above the fall line (in the source, bricks are built from
points in the upper 60% band, `upper_threshold = z_min + 0.4 * extent`,
while `bottom = z_min + 0.05`, so every brick's `z_lo` is far above
`bottom - 0.07`). -/
def Init (cfg : Config) (s : GameState) : Prop :=
  s.won = false ∧ s.lost = false ∧ s.bricks ≠ [] ∧
  (∀ b ∈ s.bricks, b.active = true) ∧
  s.brick_hit_cooldown = 0 ∧ s.ball_fall_count = 0 ∧
  s.win_animation_frames = 0 ∧ s.loss_animation_frames = 0 ∧
  (∀ b ∈ s.bricks, cfg.bottom - 0.07 ≤ b.z_lo)

/-- States reachable from an initial state by ticking. -/
inductive Reachable (cfg : Config) : GameState → Prop
  | init (s : GameState) : Init cfg s → Reachable cfg s
  | step (s : GameState) : Reachable cfg s → Reachable cfg (renderNextFrame cfg s)

/-- Number of active bricks. -/
def activeCount (l : List Brick) : ℕ := (l.filter (·.active)).length

/-- The list of per-brick active flags. -/
def activeFlags (l : List Brick) : List Bool := l.map (·.active)

/-- A concrete configuration used by the closed witness theorems:
the source's default knobs, a unit-height play area, the paddle row at
`0.05`, and a three-point catalog at height `0`. -/
def cfgW : Config where
  ball_speed := 0.015
  paddle_speed := 0.02
  paddle_width := 0.25
  rotation_speed := 0.003
  left_wall := -0.35
  right_wall := 0.35
  top_wall := 0.95
  bottom := 0
  paddle_z := 0.05
  z_row_spacing := 0.01
  z_lo := -0.05
  z_hi := 0.95
  numPoints := 3
  z := fun _ => 0

/-- A concrete brick high above the paddle, used by the witnesses. -/
def brickW : Brick where
  indices := [0]
  active := true
  z_lo := 0.5
  z_hi := 0.6
  y_lo := -0.3
  y_hi := 0.3

/-- A concrete game state in the playing state with one active brick. -/
def stW : GameState where
  rotation_angle := 0
  game_count := 0
  paddle_y := 0
  ball_y := 0
  ball_z := 0.2
  ball_vy := 0.0105
  ball_vz := 0.015
  bricks := [brickW]
  won := false
  lost := false
  win_animation_frames := 0
  loss_animation_frames := 0
  ball_fall_count := 0
  last_brick_hit := -1
  brick_hit_cooldown := 0
  frame_count := 0

/-- The in-tick state at which `_move_ball` runs its brick scan: after the
paddle has moved and the ball has been integrated and bounced off walls and
paddle. -/
def midState (cfg : Config) (s : GameState) : GameState :=
  paddleStep cfg (wallStep cfg (move_paddle cfg s))

/-- States through which no brick can be destroyed for at least `c` more
ticks: either playing with the hit cooldown at `c`, or inside a loss/win
animation with at least `c` ticks of animation left before the reset. -/
def CooldownInv (c : ℕ) (s : GameState) : Prop :=
  (s.lost = false ∧ s.won = false ∧ s.brick_hit_cooldown = c) ∨
  (s.lost = true ∧ s.loss_animation_frames + c ≤ 119) ∨
  (s.lost = false ∧ s.won = true ∧ s.win_animation_frames + c ≤ 89)

/-- The inductive invariant of the game state machine: bricks exist, every
brick's collision band lies above the fall line, the win flag tracks
extinction of the active bricks, and the win and loss flags are never both
set. -/
def GoodState (cfg : Config) (s : GameState) : Prop :=
  s.bricks ≠ [] ∧
  (∀ b ∈ s.bricks, cfg.bottom - 0.07 ≤ b.z_lo) ∧
  (s.won = true → activeCount s.bricks = 0) ∧
  (s.won = false → 0 < activeCount s.bricks) ∧
  ¬ (s.won = true ∧ s.lost = true)

/-- A loss-animation state for the closed counterexamples/witnesses. -/
def stLost : GameState := { stW with lost := true, loss_animation_frames := 10 }

/-- A loss-animation state one tick before the 120-tick reset. -/
def stLost119 : GameState := { stW with lost := true, loss_animation_frames := 119 }

/-- A win-animation state one tick before the 90-tick reset. -/
def stWon89 : GameState := { stW with won := true, win_animation_frames := 89 }

/-- A playing state whose ball is about to end the tick below the fall
line. -/
def stFall : GameState := { stW with ball_z := -0.2, ball_vz := -0.01 }

/-- A playing state whose ball is about to hit the paddle. -/
def stPad : GameState := { stW with ball_z := 0.03, ball_vy := 0.01 }

/-- A playing state whose ball is inside the brick's expanded box after
integration. -/
def stHit : GameState := { stW with ball_z := 0.5, ball_vz := 0.015 }

/-- A concrete oracle for the closed witnesses. -/
def orcW : Oracle where
  visible := fun _ => true
  projY := fun _ => 0
  winRGB := fun _ => (0, 0, 0)

section ProjectionLemmas

variable (cfg : Config) (s : GameState)

@[simp] lemma move_paddle_ball_y : (move_paddle cfg s).ball_y = s.ball_y := rfl
@[simp] lemma move_paddle_ball_z : (move_paddle cfg s).ball_z = s.ball_z := rfl
@[simp] lemma move_paddle_ball_vy : (move_paddle cfg s).ball_vy = s.ball_vy := rfl
@[simp] lemma move_paddle_ball_vz : (move_paddle cfg s).ball_vz = s.ball_vz := rfl
@[simp] lemma move_paddle_bricks : (move_paddle cfg s).bricks = s.bricks := rfl
@[simp] lemma move_paddle_won : (move_paddle cfg s).won = s.won := rfl
@[simp] lemma move_paddle_lost : (move_paddle cfg s).lost = s.lost := rfl
@[simp] lemma move_paddle_cooldown : (move_paddle cfg s).brick_hit_cooldown = s.brick_hit_cooldown := rfl
@[simp] lemma move_paddle_fall : (move_paddle cfg s).ball_fall_count = s.ball_fall_count := rfl
@[simp] lemma move_paddle_game_count : (move_paddle cfg s).game_count = s.game_count := rfl
@[simp] lemma move_paddle_rotation : (move_paddle cfg s).rotation_angle = s.rotation_angle := rfl
@[simp] lemma move_paddle_loss_frames : (move_paddle cfg s).loss_animation_frames = s.loss_animation_frames := rfl
@[simp] lemma move_paddle_win_frames : (move_paddle cfg s).win_animation_frames = s.win_animation_frames := rfl

@[simp] lemma wallStep_paddle_y : (wallStep cfg s).paddle_y = s.paddle_y := rfl
@[simp] lemma wallStep_bricks : (wallStep cfg s).bricks = s.bricks := rfl
@[simp] lemma wallStep_won : (wallStep cfg s).won = s.won := rfl
@[simp] lemma wallStep_lost : (wallStep cfg s).lost = s.lost := rfl
@[simp] lemma wallStep_cooldown : (wallStep cfg s).brick_hit_cooldown = s.brick_hit_cooldown := rfl
@[simp] lemma wallStep_fall : (wallStep cfg s).ball_fall_count = s.ball_fall_count := rfl
@[simp] lemma wallStep_game_count : (wallStep cfg s).game_count = s.game_count := rfl
@[simp] lemma wallStep_rotation : (wallStep cfg s).rotation_angle = s.rotation_angle := rfl
@[simp] lemma wallStep_loss_frames : (wallStep cfg s).loss_animation_frames = s.loss_animation_frames := rfl
@[simp] lemma wallStep_win_frames : (wallStep cfg s).win_animation_frames = s.win_animation_frames := rfl

@[simp] lemma paddleStep_ball_y : (paddleStep cfg s).ball_y = s.ball_y := rfl
@[simp] lemma paddleStep_ball_z : (paddleStep cfg s).ball_z = s.ball_z := rfl
@[simp] lemma paddleStep_paddle_y : (paddleStep cfg s).paddle_y = s.paddle_y := rfl
@[simp] lemma paddleStep_bricks : (paddleStep cfg s).bricks = s.bricks := rfl
@[simp] lemma paddleStep_won : (paddleStep cfg s).won = s.won := rfl
@[simp] lemma paddleStep_lost : (paddleStep cfg s).lost = s.lost := rfl
@[simp] lemma paddleStep_cooldown : (paddleStep cfg s).brick_hit_cooldown = s.brick_hit_cooldown := rfl
@[simp] lemma paddleStep_fall : (paddleStep cfg s).ball_fall_count = s.ball_fall_count := rfl
@[simp] lemma paddleStep_game_count : (paddleStep cfg s).game_count = s.game_count := rfl
@[simp] lemma paddleStep_rotation : (paddleStep cfg s).rotation_angle = s.rotation_angle := rfl
@[simp] lemma paddleStep_loss_frames : (paddleStep cfg s).loss_animation_frames = s.loss_animation_frames := rfl
@[simp] lemma paddleStep_win_frames : (paddleStep cfg s).win_animation_frames = s.win_animation_frames := rfl

lemma brickStep_cases :
    (0 < s.brick_hit_cooldown ∧
      brickStep s = { s with brick_hit_cooldown := s.brick_hit_cooldown - 1 }) ∨
    (s.brick_hit_cooldown = 0 ∧ hitIndex s.bricks s.ball_y s.ball_z = none ∧ brickStep s = s) ∨
    (∃ i, s.brick_hit_cooldown = 0 ∧ hitIndex s.bricks s.ball_y s.ball_z = some i ∧
      brickStep s = { s with
        bricks := deactivate s.bricks i
        ball_vz := -s.ball_vz
        last_brick_hit := (i : ℤ)
        brick_hit_cooldown := 5 }) := by
  unfold brickStep
  by_cases h : 0 < s.brick_hit_cooldown
  · exact Or.inl ⟨h, by rw [if_pos h]⟩
  · have h0 : s.brick_hit_cooldown = 0 := Nat.eq_zero_of_not_pos h
    rw [if_neg h]
    cases hidx : hitIndex s.bricks s.ball_y s.ball_z with
    | none => exact Or.inr (Or.inl ⟨h0, rfl, rfl⟩)
    | some i => exact Or.inr (Or.inr ⟨i, h0, rfl, rfl⟩)

@[simp] lemma brickStep_ball_y : (brickStep s).ball_y = s.ball_y := by
  rcases brickStep_cases s with ⟨_, h⟩ | ⟨_, _, h⟩ | ⟨i, _, _, h⟩ <;> rw [h]

@[simp] lemma brickStep_ball_z : (brickStep s).ball_z = s.ball_z := by
  rcases brickStep_cases s with ⟨_, h⟩ | ⟨_, _, h⟩ | ⟨i, _, _, h⟩ <;> rw [h]

@[simp] lemma brickStep_ball_vy : (brickStep s).ball_vy = s.ball_vy := by
  rcases brickStep_cases s with ⟨_, h⟩ | ⟨_, _, h⟩ | ⟨i, _, _, h⟩ <;> rw [h]

@[simp] lemma brickStep_paddle_y : (brickStep s).paddle_y = s.paddle_y := by
  rcases brickStep_cases s with ⟨_, h⟩ | ⟨_, _, h⟩ | ⟨i, _, _, h⟩ <;> rw [h]

@[simp] lemma brickStep_won : (brickStep s).won = s.won := by
  rcases brickStep_cases s with ⟨_, h⟩ | ⟨_, _, h⟩ | ⟨i, _, _, h⟩ <;> rw [h]

@[simp] lemma brickStep_lost : (brickStep s).lost = s.lost := by
  rcases brickStep_cases s with ⟨_, h⟩ | ⟨_, _, h⟩ | ⟨i, _, _, h⟩ <;> rw [h]

@[simp] lemma brickStep_fall : (brickStep s).ball_fall_count = s.ball_fall_count := by
  rcases brickStep_cases s with ⟨_, h⟩ | ⟨_, _, h⟩ | ⟨i, _, _, h⟩ <;> rw [h]

@[simp] lemma brickStep_game_count : (brickStep s).game_count = s.game_count := by
  rcases brickStep_cases s with ⟨_, h⟩ | ⟨_, _, h⟩ | ⟨i, _, _, h⟩ <;> rw [h]

@[simp] lemma brickStep_rotation : (brickStep s).rotation_angle = s.rotation_angle := by
  rcases brickStep_cases s with ⟨_, h⟩ | ⟨_, _, h⟩ | ⟨i, _, _, h⟩ <;> rw [h]

@[simp] lemma brickStep_loss_frames : (brickStep s).loss_animation_frames = s.loss_animation_frames := by
  rcases brickStep_cases s with ⟨_, h⟩ | ⟨_, _, h⟩ | ⟨i, _, _, h⟩ <;> rw [h]

@[simp] lemma brickStep_win_frames : (brickStep s).win_animation_frames = s.win_animation_frames := by
  rcases brickStep_cases s with ⟨_, h⟩ | ⟨_, _, h⟩ | ⟨i, _, _, h⟩ <;> rw [h]

end ProjectionLemmas

section MoreProjectionLemmas

variable (cfg : Config) (s : GameState)

lemma fallStep_cases :
    (¬ s.ball_z < cfg.bottom - 0.1 ∧ fallStep cfg s = s) ∨
    (s.ball_z < cfg.bottom - 0.1 ∧ s.won = false ∧ s.lost = false ∧
      (s.ball_fall_count + 1) % 3 = 0 ∧
      fallStep cfg s = { s with
        ball_fall_count := s.ball_fall_count + 1
        lost := true
        loss_animation_frames := 0 }) ∨
    (s.ball_z < cfg.bottom - 0.1 ∧ s.won = false ∧ s.lost = false ∧
      (s.ball_fall_count + 1) % 3 ≠ 0 ∧
      fallStep cfg s = reset_ball cfg { s with ball_fall_count := s.ball_fall_count + 1 }) ∨
    (s.ball_z < cfg.bottom - 0.1 ∧ ¬ (s.won = false ∧ s.lost = false) ∧
      fallStep cfg s = reset_ball cfg s) := by
  unfold fallStep
  by_cases hfall : s.ball_z < cfg.bottom - 0.1
  · rw [if_pos hfall]
    by_cases hflags : s.won = false ∧ s.lost = false
    · rw [if_pos hflags]
      by_cases hmod : (s.ball_fall_count + 1) % 3 = 0
      · exact Or.inr (Or.inl ⟨hfall, hflags.1, hflags.2, hmod, by rw [if_pos hmod]⟩)
      · exact Or.inr (Or.inr (Or.inl ⟨hfall, hflags.1, hflags.2, hmod, by rw [if_neg hmod]⟩))
    · exact Or.inr (Or.inr (Or.inr ⟨hfall, hflags, by rw [if_neg hflags]⟩))
  · exact Or.inl ⟨hfall, by rw [if_neg hfall]⟩

@[simp] lemma reset_ball_bricks : (reset_ball cfg s).bricks = s.bricks := rfl
@[simp] lemma reset_ball_won : (reset_ball cfg s).won = s.won := rfl
@[simp] lemma reset_ball_lost : (reset_ball cfg s).lost = s.lost := rfl
@[simp] lemma reset_ball_fall : (reset_ball cfg s).ball_fall_count = s.ball_fall_count := rfl
@[simp] lemma reset_ball_cooldown : (reset_ball cfg s).brick_hit_cooldown = s.brick_hit_cooldown := rfl
@[simp] lemma reset_ball_game_count : (reset_ball cfg s).game_count = s.game_count := rfl
@[simp] lemma reset_ball_rotation : (reset_ball cfg s).rotation_angle = s.rotation_angle := rfl
@[simp] lemma reset_ball_ball_vy : (reset_ball cfg s).ball_vy = s.ball_vy := rfl
@[simp] lemma reset_ball_ball_y : (reset_ball cfg s).ball_y = s.paddle_y := rfl
@[simp] lemma reset_ball_ball_z : (reset_ball cfg s).ball_z = cfg.paddle_z + 0.1 := rfl
@[simp] lemma reset_ball_ball_vz : (reset_ball cfg s).ball_vz = |s.ball_vz| := rfl
@[simp] lemma reset_ball_loss_frames : (reset_ball cfg s).loss_animation_frames = s.loss_animation_frames := rfl
@[simp] lemma reset_ball_win_frames : (reset_ball cfg s).win_animation_frames = s.win_animation_frames := rfl
@[simp] lemma reset_ball_paddle_y : (reset_ball cfg s).paddle_y = s.paddle_y := rfl

@[simp] lemma fallStep_bricks : (fallStep cfg s).bricks = s.bricks := by
  rcases fallStep_cases cfg s with ⟨_, h⟩ | ⟨_, _, _, _, h⟩ | ⟨_, _, _, _, h⟩ | ⟨_, _, h⟩ <;>
    rw [h] <;> rfl

@[simp] lemma fallStep_won : (fallStep cfg s).won = s.won := by
  rcases fallStep_cases cfg s with ⟨_, h⟩ | ⟨_, _, _, _, h⟩ | ⟨_, _, _, _, h⟩ | ⟨_, _, h⟩ <;>
    rw [h] <;> rfl

@[simp] lemma fallStep_cooldown : (fallStep cfg s).brick_hit_cooldown = s.brick_hit_cooldown := by
  rcases fallStep_cases cfg s with ⟨_, h⟩ | ⟨_, _, _, _, h⟩ | ⟨_, _, _, _, h⟩ | ⟨_, _, h⟩ <;>
    rw [h] <;> rfl

@[simp] lemma fallStep_game_count : (fallStep cfg s).game_count = s.game_count := by
  rcases fallStep_cases cfg s with ⟨_, h⟩ | ⟨_, _, _, _, h⟩ | ⟨_, _, _, _, h⟩ | ⟨_, _, h⟩ <;>
    rw [h] <;> rfl

@[simp] lemma fallStep_rotation : (fallStep cfg s).rotation_angle = s.rotation_angle := by
  rcases fallStep_cases cfg s with ⟨_, h⟩ | ⟨_, _, _, _, h⟩ | ⟨_, _, _, _, h⟩ | ⟨_, _, h⟩ <;>
    rw [h] <;> rfl

@[simp] lemma fallStep_ball_vy : (fallStep cfg s).ball_vy = s.ball_vy := by
  rcases fallStep_cases cfg s with ⟨_, h⟩ | ⟨_, _, _, _, h⟩ | ⟨_, _, _, _, h⟩ | ⟨_, _, h⟩ <;>
    rw [h] <;> rfl

@[simp] lemma fallStep_paddle_y : (fallStep cfg s).paddle_y = s.paddle_y := by
  rcases fallStep_cases cfg s with ⟨_, h⟩ | ⟨_, _, _, _, h⟩ | ⟨_, _, _, _, h⟩ | ⟨_, _, h⟩ <;>
    rw [h] <;> rfl

@[simp] lemma fallStep_win_frames : (fallStep cfg s).win_animation_frames = s.win_animation_frames := by
  rcases fallStep_cases cfg s with ⟨_, h⟩ | ⟨_, _, _, _, h⟩ | ⟨_, _, _, _, h⟩ | ⟨_, _, h⟩ <;>
    rw [h] <;> rfl

lemma winStep_cases :
    (s.bricks.any (·.active) = false ∧ s.won = false ∧
      winStep s = { s with won := true, win_animation_frames := 0 }) ∨
    (¬ (s.bricks.any (·.active) = false ∧ s.won = false) ∧ winStep s = s) := by
  unfold winStep
  by_cases h : s.bricks.any (·.active) = false ∧ s.won = false
  · exact Or.inl ⟨h.1, h.2, by rw [if_pos h]⟩
  · exact Or.inr ⟨h, by rw [if_neg h]⟩

@[simp] lemma winStep_bricks : (winStep s).bricks = s.bricks := by
  rcases winStep_cases s with ⟨_, _, h⟩ | ⟨_, h⟩ <;> rw [h]

@[simp] lemma winStep_lost : (winStep s).lost = s.lost := by
  rcases winStep_cases s with ⟨_, _, h⟩ | ⟨_, h⟩ <;> rw [h]

@[simp] lemma winStep_fall : (winStep s).ball_fall_count = s.ball_fall_count := by
  rcases winStep_cases s with ⟨_, _, h⟩ | ⟨_, h⟩ <;> rw [h]

@[simp] lemma winStep_cooldown : (winStep s).brick_hit_cooldown = s.brick_hit_cooldown := by
  rcases winStep_cases s with ⟨_, _, h⟩ | ⟨_, h⟩ <;> rw [h]

@[simp] lemma winStep_game_count : (winStep s).game_count = s.game_count := by
  rcases winStep_cases s with ⟨_, _, h⟩ | ⟨_, h⟩ <;> rw [h]

@[simp] lemma winStep_rotation : (winStep s).rotation_angle = s.rotation_angle := by
  rcases winStep_cases s with ⟨_, _, h⟩ | ⟨_, h⟩ <;> rw [h]

@[simp] lemma winStep_ball_y : (winStep s).ball_y = s.ball_y := by
  rcases winStep_cases s with ⟨_, _, h⟩ | ⟨_, h⟩ <;> rw [h]

@[simp] lemma winStep_ball_z : (winStep s).ball_z = s.ball_z := by
  rcases winStep_cases s with ⟨_, _, h⟩ | ⟨_, h⟩ <;> rw [h]

@[simp] lemma winStep_ball_vy : (winStep s).ball_vy = s.ball_vy := by
  rcases winStep_cases s with ⟨_, _, h⟩ | ⟨_, h⟩ <;> rw [h]

@[simp] lemma winStep_ball_vz : (winStep s).ball_vz = s.ball_vz := by
  rcases winStep_cases s with ⟨_, _, h⟩ | ⟨_, h⟩ <;> rw [h]

@[simp] lemma winStep_paddle_y : (winStep s).paddle_y = s.paddle_y := by
  rcases winStep_cases s with ⟨_, _, h⟩ | ⟨_, h⟩ <;> rw [h]

@[simp] lemma winStep_loss_frames : (winStep s).loss_animation_frames = s.loss_animation_frames := by
  rcases winStep_cases s with ⟨_, _, h⟩ | ⟨_, h⟩ <;> rw [h]

@[simp] lemma reset_game_bricks : (reset_game cfg s).bricks = s.bricks.map fun b => { b with active := true } := rfl
@[simp] lemma reset_game_won : (reset_game cfg s).won = false := rfl
@[simp] lemma reset_game_lost : (reset_game cfg s).lost = false := rfl
@[simp] lemma reset_game_fall : (reset_game cfg s).ball_fall_count = 0 := rfl
@[simp] lemma reset_game_cooldown : (reset_game cfg s).brick_hit_cooldown = 0 := rfl
@[simp] lemma reset_game_game_count : (reset_game cfg s).game_count = s.game_count + 1 := rfl
@[simp] lemma reset_game_rotation :
    (reset_game cfg s).rotation_angle = 2 * npPi / 6 * (((s.game_count + 1) % 6 : ℕ) : ℚ) := rfl
@[simp] lemma reset_game_ball_vy : (reset_game cfg s).ball_vy = s.ball_vy := rfl
@[simp] lemma reset_game_ball_y : (reset_game cfg s).ball_y = s.paddle_y := rfl
@[simp] lemma reset_game_ball_z : (reset_game cfg s).ball_z = cfg.paddle_z + 0.1 := rfl
@[simp] lemma reset_game_ball_vz : (reset_game cfg s).ball_vz = |s.ball_vz| := rfl
@[simp] lemma reset_game_paddle_y : (reset_game cfg s).paddle_y = s.paddle_y := rfl
@[simp] lemma reset_game_loss_frames : (reset_game cfg s).loss_animation_frames = 0 := rfl
@[simp] lemma reset_game_win_frames : (reset_game cfg s).win_animation_frames = 0 := rfl

end MoreProjectionLemmas

section TickBranchLemmas

variable (cfg : Config) (s : GameState)

/-- On a loss-animation tick that has not reached the 120-frame duration,
the tick only bumps the frame counter, advances the rotation angle and
bumps the loss-animation counter. -/
lemma renderNextFrame_lost_anim (hl : s.lost = true)
    (hd : s.loss_animation_frames + 1 < 120) :
    renderNextFrame cfg s = { s with
      frame_count := s.frame_count + 1
      rotation_angle := wrapAngle (s.rotation_angle + cfg.rotation_speed)
      loss_animation_frames := s.loss_animation_frames + 1 } := by
  unfold renderNextFrame
  rw [if_pos, if_neg]
  · exact Nat.not_le.mpr hd
  · exact hl

/-- On the tick that completes the loss animation, the game is reset and a
simulation step runs. -/
lemma renderNextFrame_lost_reset (hl : s.lost = true)
    (hd : 120 ≤ s.loss_animation_frames + 1) :
    renderNextFrame cfg s = simStep cfg (reset_game cfg { s with
      frame_count := s.frame_count + 1
      rotation_angle := wrapAngle (s.rotation_angle + cfg.rotation_speed)
      loss_animation_frames := s.loss_animation_frames + 1 }) := by
  unfold renderNextFrame winPhase
  rw [if_pos, if_pos, if_neg]
  · rw [reset_game_won]; exact Bool.false_ne_true
  · exact hd
  · exact hl

/-- On a win-animation tick that has not reached the 90-frame duration, the
tick only bumps the frame counter, advances the rotation angle and bumps
the win-animation counter. -/
lemma renderNextFrame_win_anim (hl : s.lost = false) (hw : s.won = true)
    (hd : s.win_animation_frames + 1 < 90) :
    renderNextFrame cfg s = { s with
      frame_count := s.frame_count + 1
      rotation_angle := wrapAngle (s.rotation_angle + cfg.rotation_speed)
      win_animation_frames := s.win_animation_frames + 1 } := by
  unfold renderNextFrame winPhase
  rw [if_neg, if_pos, if_neg]
  · exact Nat.not_le.mpr hd
  · exact hw
  · simp [hl]

/-- On the tick that completes the win animation, the game is reset and a
simulation step runs. -/
lemma renderNextFrame_win_reset (hl : s.lost = false) (hw : s.won = true)
    (hd : 90 ≤ s.win_animation_frames + 1) :
    renderNextFrame cfg s = simStep cfg (reset_game cfg { s with
      frame_count := s.frame_count + 1
      rotation_angle := wrapAngle (s.rotation_angle + cfg.rotation_speed)
      win_animation_frames := s.win_animation_frames + 1 }) := by
  unfold renderNextFrame winPhase
  rw [if_neg, if_pos, if_pos]
  · exact hd
  · exact hw
  · simp [hl]

/-- On a playing tick, the tick bumps the frame counter, advances the
rotation angle and runs the simulation step. -/
lemma renderNextFrame_playing (hl : s.lost = false) (hw : s.won = false) :
    renderNextFrame cfg s = simStep cfg { s with
      frame_count := s.frame_count + 1
      rotation_angle := wrapAngle (s.rotation_angle + cfg.rotation_speed) } := by
  unfold renderNextFrame winPhase
  rw [if_neg, if_neg]
  · simp [hw]
  · simp [hl]

end TickBranchLemmas

section ListLemmas

variable (y z : ℚ)

/-- The brick scan misses exactly when no active brick's expanded box
contains the ball. -/
lemma hitScan_eq_none_iff (l : List Brick) (i : ℕ) :
    hitScan y z l i = none ↔ ∀ b ∈ l, ¬ (b.active = true ∧ inBrickBox b y z) := by
  induction l generalizing i with
  | nil => simp [hitScan]
  | cons b bs ih =>
      by_cases hb : b.active = true ∧ inBrickBox b y z
      · simp [hitScan, if_pos hb, hb]
      · simp only [hitScan, if_neg hb, List.mem_cons]
        rw [ih (i + 1)]
        constructor
        · rintro h c (rfl | hc)
          · exact hb
          · exact h c hc
        · intro h c hc
          exact h c (Or.inr hc)

/-- The brick scan starting at offset `i` returns the offset plus the
position of the first active containing brick, which exists, is active,
contains the ball, and is minimal in scan order. -/
lemma hitScan_eq_some (l : List Brick) (i j : ℕ)
    (h : hitScan y z l i = some j) :
    i ≤ j ∧
    (∃ b, l.get? (j - i) = some b ∧ b.active = true ∧ inBrickBox b y z) ∧
    (∀ m, m < j - i → ∀ c, l.get? m = some c → ¬ (c.active = true ∧ inBrickBox c y z)) := by
  induction l generalizing i with
  | nil => simp [hitScan] at h
  | cons b bs ih =>
      by_cases hb : b.active = true ∧ inBrickBox b y z
      · rw [hitScan, if_pos hb] at h
        obtain rfl : i = j := by injection h
        refine ⟨le_refl i, ⟨b, ?_, hb.1, hb.2⟩, ?_⟩
        · simp
        · intro m hm
          omega
      · rw [hitScan, if_neg hb] at h
        obtain ⟨hij, ⟨c, hc, hca, hcb⟩, hmin⟩ := ih (i + 1) h
        have hij' : i ≤ j := le_trans (Nat.le_succ i) hij
        refine ⟨hij', ⟨c, ?_, hca, hcb⟩, ?_⟩
        · have : j - i = (j - (i + 1)) + 1 := by omega
          rw [this]
          simpa using hc
        · intro m hm d hd
          match m with
          | 0 =>
              obtain rfl : b = d := by simpa using hd
              exact hb
          | m' + 1 =>
              have hm' : m' < j - (i + 1) := by omega
              exact hmin m' hm' d (by simpa using hd)

/-- `deactivate` preserves the length of the brick list. -/
lemma length_deactivate (l : List Brick) (i : ℕ) :
    (deactivate l i).length = l.length := by
  induction l generalizing i with
  | nil => rfl
  | cons b bs ih =>
      match i with
      | 0 => rfl
      | n + 1 => simpa [deactivate] using ih n

/-- `deactivate` clears exactly the flag at position `i`. -/
lemma activeFlags_deactivate (l : List Brick) (i : ℕ) :
    activeFlags (deactivate l i) = (activeFlags l).set i false := by
  induction l generalizing i with
  | nil => rfl
  | cons b bs ih =>
      match i with
      | 0 => rfl
      | n + 1 =>
          show b.active :: activeFlags (deactivate bs n) = b.active :: (activeFlags bs).set n false
          rw [ih n]

/-- `deactivate` keeps every entry other than position `i` and only clears
the flag there. -/
lemma get?_deactivate (l : List Brick) (i j : ℕ) :
    (deactivate l i).get? j =
      if j = i then (l.get? j).map (fun b => { b with active := false })
      else l.get? j := by
  induction l generalizing i j with
  | nil => simp [deactivate]
  | cons b bs ih =>
      match i, j with
      | 0, 0 => simp [deactivate]
      | 0, m + 1 => simp [deactivate]
      | n + 1, 0 => simp [deactivate]
      | n + 1, m + 1 => simpa [deactivate] using ih n m

/-- `deactivate` does not change the bounding boxes, only a flag. -/
lemma map_z_lo_deactivate (l : List Brick) (i : ℕ) :
    (deactivate l i).map (·.z_lo) = l.map (·.z_lo) := by
  induction l generalizing i with
  | nil => rfl
  | cons b bs ih =>
      match i with
      | 0 => rfl
      | n + 1 => simp [deactivate, ih n]

/-- Deactivating an active brick decreases the active count by one. -/
lemma activeCount_deactivate (l : List Brick) (i : ℕ) (b : Brick)
    (hb : l.get? i = some b) (ha : b.active = true) :
    activeCount (deactivate l i) + 1 = activeCount l := by
  induction l generalizing i with
  | nil => simp at hb
  | cons c cs ih =>
      match i with
      | 0 =>
          obtain rfl : c = b := by simpa using hb
          simp [deactivate, activeCount, List.filter, ha]
      | n + 1 =>
          have := ih n (by simpa using hb)
          by_cases hc : c.active = true <;>
            simp [deactivate, activeCount, List.filter, hc] at this ⊢ <;> omega

/-- The active count is zero exactly when no brick is active. -/
lemma activeCount_eq_zero_iff (l : List Brick) :
    activeCount l = 0 ↔ ∀ b ∈ l, b.active = false := by
  unfold activeCount
  rw [List.length_eq_zero, List.filter_eq_nil_iff]
  constructor
  · intro h b hb
    have := h b hb
    simpa using this
  · intro h b hb
    simp [h b hb]

/-- The active count is positive exactly when some brick is active. -/
lemma activeCount_pos_iff (l : List Brick) :
    0 < activeCount l ↔ ∃ b ∈ l, b.active = true := by
  rw [Nat.pos_iff_ne_zero, Ne, activeCount_eq_zero_iff]
  push_neg
  constructor
  · rintro ⟨b, hb, h⟩
    exact ⟨b, hb, by simpa using h⟩
  · rintro ⟨b, hb, h⟩
    exact ⟨b, hb, by simp [h]⟩

/-- `any (·.active)` agrees with positivity of the active count. -/
lemma any_active_eq_false_iff (l : List Brick) :
    l.any (·.active) = false ↔ activeCount l = 0 := by
  rw [activeCount_eq_zero_iff, List.any_eq_false]
  constructor
  · intro h b hb
    have := h b hb
    simpa using this
  · intro h b hb
    simp [h b hb]

/-- The active count only depends on the flags. -/
lemma activeCount_eq_of_activeFlags_eq {l₁ l₂ : List Brick}
    (h : activeFlags l₁ = activeFlags l₂) : activeCount l₁ = activeCount l₂ := by
  have key : ∀ l : List Brick, activeCount l = (activeFlags l).countP id := by
    intro l
    unfold activeCount activeFlags
    rw [List.countP_map, ← List.countP_eq_length_filter]
    rfl
  rw [key, key, h]

/-- After reactivating every brick of a nonempty list, some brick is
active. -/
lemma activeCount_pos_reset {l : List Brick} (h : l ≠ []) :
    0 < activeCount (l.map fun b => { b with active := true }) := by
  rw [activeCount_pos_iff]
  obtain ⟨b, hb⟩ := List.exists_mem_of_ne_nil l h
  exact ⟨{ b with active := true }, List.mem_map_of_mem _ hb, rfl⟩

end ListLemmas

section SimStepLemmas

variable (cfg : Config) (s : GameState)

lemma simStep_eq : simStep cfg s = winStep (fallStep cfg (brickStep (midState cfg s))) := rfl

@[simp] lemma midState_bricks : (midState cfg s).bricks = s.bricks := by simp [midState]
@[simp] lemma midState_won : (midState cfg s).won = s.won := by simp [midState]
@[simp] lemma midState_lost : (midState cfg s).lost = s.lost := by simp [midState]
@[simp] lemma midState_cooldown : (midState cfg s).brick_hit_cooldown = s.brick_hit_cooldown := by
  simp [midState]
@[simp] lemma midState_fall : (midState cfg s).ball_fall_count = s.ball_fall_count := by
  simp [midState]
@[simp] lemma midState_game_count : (midState cfg s).game_count = s.game_count := by
  simp [midState]
@[simp] lemma midState_rotation : (midState cfg s).rotation_angle = s.rotation_angle := by
  simp [midState]
@[simp] lemma midState_loss_frames : (midState cfg s).loss_animation_frames = s.loss_animation_frames := by
  simp [midState]
@[simp] lemma midState_win_frames : (midState cfg s).win_animation_frames = s.win_animation_frames := by
  simp [midState]

@[simp] lemma simStep_game_count : (simStep cfg s).game_count = s.game_count := by
  rw [simStep_eq]; simp

@[simp] lemma simStep_rotation : (simStep cfg s).rotation_angle = s.rotation_angle := by
  rw [simStep_eq]; simp

/-- While the hit cooldown is positive, a simulation step leaves the bricks
untouched and decrements the cooldown. -/
lemma simStep_cooldown_pos (hc : 0 < s.brick_hit_cooldown) :
    (simStep cfg s).bricks = s.bricks ∧
    (simStep cfg s).brick_hit_cooldown = s.brick_hit_cooldown - 1 := by
  rw [simStep_eq]
  rcases brickStep_cases (midState cfg s) with ⟨h1, heq⟩ | ⟨h0, _, heq⟩ | ⟨i, h0, _, heq⟩
  · rw [heq]; constructor <;> simp
  · rw [midState_cooldown] at h0; omega
  · rw [midState_cooldown] at h0; omega

/-- When the cooldown is zero and the scan misses, a simulation step leaves
the bricks untouched and the cooldown at zero. -/
lemma simStep_no_hit (hc : s.brick_hit_cooldown = 0)
    (hn : hitIndex s.bricks (midState cfg s).ball_y (midState cfg s).ball_z = none) :
    (simStep cfg s).bricks = s.bricks ∧ (simStep cfg s).brick_hit_cooldown = 0 := by
  rw [simStep_eq]
  rcases brickStep_cases (midState cfg s) with ⟨h1, heq⟩ | ⟨h0, _, heq⟩ | ⟨i, h0, hsome, heq⟩
  · rw [midState_cooldown] at h1; omega
  · rw [heq]; constructor <;> simp [hc]
  · rw [midState_bricks] at hsome; rw [hn] at hsome; cases hsome

/-- When the cooldown is zero and the scan hits brick `i`, a simulation
step deactivates exactly that brick and sets the cooldown to five. -/
lemma simStep_hit (hc : s.brick_hit_cooldown = 0) (i : ℕ)
    (hi : hitIndex s.bricks (midState cfg s).ball_y (midState cfg s).ball_z = some i) :
    (simStep cfg s).bricks = deactivate s.bricks i ∧
    (simStep cfg s).brick_hit_cooldown = 5 := by
  rw [simStep_eq]
  rcases brickStep_cases (midState cfg s) with ⟨h1, heq⟩ | ⟨h0, hn, heq⟩ | ⟨j, h0, hsome, heq⟩
  · rw [midState_cooldown] at h1; omega
  · rw [midState_bricks] at hn; rw [hi] at hn; cases hn
  · rw [midState_bricks] at hsome
    rw [hi] at hsome
    obtain rfl : j = i := by
      injection hsome with hji
      exact hji.symm
    rw [heq]; constructor <;> simp

/-- A simulation step never destroys more than one brick: either the flags
are unchanged or exactly one brick was deactivated. -/
lemma simStep_bricks_cases :
    (simStep cfg s).bricks = s.bricks ∨
    ∃ i b, s.bricks.get? i = some b ∧ b.active = true ∧
      inBrickBox b (midState cfg s).ball_y (midState cfg s).ball_z ∧
      (simStep cfg s).bricks = deactivate s.bricks i := by
  by_cases hc : 0 < s.brick_hit_cooldown
  · exact Or.inl (simStep_cooldown_pos cfg s hc).1
  · have hc0 : s.brick_hit_cooldown = 0 := by omega
    cases hidx : hitIndex s.bricks (midState cfg s).ball_y (midState cfg s).ball_z with
    | none => exact Or.inl (simStep_no_hit cfg s hc0 hidx).1
    | some i =>
        obtain ⟨-, ⟨b, hb, hba, hbb⟩, -⟩ := hitScan_eq_some _ _ s.bricks 0 i hidx
        rw [Nat.sub_zero] at hb
        exact Or.inr ⟨i, b, hb, hba, hbb, (simStep_hit cfg s hc0 i hidx).1⟩

/-- If a simulation step strictly decreased the active count, the scan hit
an active brick whose expanded box contains the in-tick ball position. -/
lemma simStep_destroy_hit
    (h : activeCount (simStep cfg s).bricks < activeCount s.bricks) :
    ∃ i b, s.bricks.get? i = some b ∧ b.active = true ∧
      inBrickBox b (midState cfg s).ball_y (midState cfg s).ball_z ∧
      (simStep cfg s).bricks = deactivate s.bricks i ∧
      s.brick_hit_cooldown = 0 ∧ (simStep cfg s).brick_hit_cooldown = 5 := by
  by_cases hc : 0 < s.brick_hit_cooldown
  · rw [(simStep_cooldown_pos cfg s hc).1] at h; omega
  · have hc0 : s.brick_hit_cooldown = 0 := by omega
    cases hidx : hitIndex s.bricks (midState cfg s).ball_y (midState cfg s).ball_z with
    | none => rw [(simStep_no_hit cfg s hc0 hidx).1] at h; omega
    | some i =>
        obtain ⟨-, ⟨b, hb, hba, hbb⟩, -⟩ := hitScan_eq_some _ _ s.bricks 0 i hidx
        rw [Nat.sub_zero] at hb
        exact ⟨i, b, hb, hba, hbb, (simStep_hit cfg s hc0 i hidx).1, hc0,
          (simStep_hit cfg s hc0 i hidx).2⟩

/-- A simulation step destroys at most one brick. -/
lemma simStep_activeCount_le :
    activeCount s.bricks ≤ activeCount (simStep cfg s).bricks + 1 := by
  rcases simStep_bricks_cases cfg s with h | ⟨i, b, hb, hba, -, h⟩
  · rw [h]; omega
  · rw [h, ← activeCount_deactivate s.bricks i b hb hba]

/-- When the step leaves the won flag clear, it was clear before and some
brick remains active. -/
lemma simStep_won_false (h : (simStep cfg s).won = false) :
    s.won = false ∧ 0 < activeCount (simStep cfg s).bricks := by
  rw [simStep_eq] at h ⊢
  rcases winStep_cases (fallStep cfg (brickStep (midState cfg s))) with ⟨ha, hw, heq⟩ | ⟨hne, heq⟩
  · rw [heq] at h; simp at h
  · rw [heq] at h ⊢
    have hw : s.won = false := by
      rw [← h]; simp
    refine ⟨hw, ?_⟩
    rcases Bool.eq_false_or_eq_true ((fallStep cfg (brickStep (midState cfg s))).bricks.any (·.active)) with ht | ht
    · rw [activeCount_pos_iff]
      simpa using List.any_eq_true.mp ht
    · exact absurd ⟨ht, h⟩ hne

/-- When the step sets or keeps the won flag, no brick remains active or it
was already set. -/
lemma simStep_won_true (h : (simStep cfg s).won = true) :
    s.won = true ∨ activeCount (simStep cfg s).bricks = 0 := by
  rw [simStep_eq] at h ⊢
  rcases winStep_cases (fallStep cfg (brickStep (midState cfg s))) with ⟨ha, hw, heq⟩ | ⟨hne, heq⟩
  · rw [any_active_eq_false_iff] at ha
    right
    rw [heq]
    simpa using ha
  · left
    rw [heq] at h
    rw [← h]; simp

/-- Setting the won flag during a simulation step zeroes the win-animation
counter; setting the lost flag zeroes the loss-animation counter and can
only happen on a genuine fall. -/
lemma simStep_new_flags (hw : s.won = false) (hl : s.lost = false) :
    ((simStep cfg s).won = true → (simStep cfg s).win_animation_frames = 0) ∧
    ((simStep cfg s).lost = true →
      (simStep cfg s).loss_animation_frames = 0 ∧
      (midState cfg s).ball_z < cfg.bottom - 0.1) := by
  rw [simStep_eq]
  have hq : (brickStep (midState cfg s)).won = false := by simp [hw]
  have hql : (brickStep (midState cfg s)).lost = false := by simp [hl]
  have hqz : (brickStep (midState cfg s)).ball_z = (midState cfg s).ball_z := by simp
  rcases fallStep_cases cfg (brickStep (midState cfg s)) with
    ⟨hnf, heqf⟩ | ⟨hf, -, -, hmod, heqf⟩ | ⟨hf, -, -, hmod, heqf⟩ | ⟨hf, hflags, heqf⟩
  · rw [heqf]
    rcases winStep_cases (brickStep (midState cfg s)) with ⟨ha, hw2, heqw⟩ | ⟨hne, heqw⟩ <;>
      rw [heqw] <;> constructor <;> intro hx <;> simp_all
  · rw [heqf]
    rcases winStep_cases ({ brickStep (midState cfg s) with
        ball_fall_count := (brickStep (midState cfg s)).ball_fall_count + 1
        lost := true
        loss_animation_frames := 0 }) with ⟨ha, hw2, heqw⟩ | ⟨hne, heqw⟩ <;>
      rw [heqw] <;> constructor <;> intro hx <;> simp_all
  · rw [heqf]
    rcases winStep_cases (reset_ball cfg { brickStep (midState cfg s) with
        ball_fall_count := (brickStep (midState cfg s)).ball_fall_count + 1 }) with
      ⟨ha, hw2, heqw⟩ | ⟨hne, heqw⟩ <;>
      rw [heqw] <;> constructor <;> intro hx <;> simp_all
  · exact absurd ⟨hq, hql⟩ hflags

end SimStepLemmas

section InvariantLemmas

variable (cfg : Config) (s : GameState)

lemma deactivate_ne_nil {l : List Brick} (h : l ≠ []) (i : ℕ) : deactivate l i ≠ [] := by
  intro hc
  have := length_deactivate l i
  rw [hc] at this
  exact h (List.eq_nil_of_length_eq_zero this.symm)

lemma geom_deactivate {l : List Brick} {c : ℚ} (h : ∀ b ∈ l, c ≤ b.z_lo) (i : ℕ) :
    ∀ b ∈ deactivate l i, c ≤ b.z_lo := by
  intro b hb
  have hmem : b.z_lo ∈ (deactivate l i).map (·.z_lo) := List.mem_map_of_mem _ hb
  rw [map_z_lo_deactivate] at hmem
  obtain ⟨d, hd, hdz⟩ := List.mem_map.mp hmem
  rw [← hdz]
  exact h d hd

lemma geom_reset {l : List Brick} {c : ℚ} (h : ∀ b ∈ l, c ≤ b.z_lo) :
    ∀ b ∈ l.map (fun b => { b with active := true }), c ≤ b.z_lo := by
  intro b hb
  obtain ⟨d, hd, rfl⟩ := List.mem_map.mp hb
  exact h d hd

/-- A simulation step from a playing state with live bricks and all brick
bands above the fall line preserves the state-machine invariant. -/
lemma simStep_good (hw : s.won = false) (hl : s.lost = false)
    (hne : s.bricks ≠ []) (hgeom : ∀ b ∈ s.bricks, cfg.bottom - 0.07 ≤ b.z_lo)
    (hcount : 0 < activeCount s.bricks) :
    GoodState cfg (simStep cfg s) := by
  have hIW : (simStep cfg s).won = true → activeCount (simStep cfg s).bricks = 0 := by
    intro hu
    rcases simStep_won_true cfg s hu with hct | hct
    · rw [hw] at hct; cases hct
    · exact hct
  have hINW : (simStep cfg s).won = false → 0 < activeCount (simStep cfg s).bricks :=
    fun hu => (simStep_won_false cfg s hu).2
  rcases simStep_bricks_cases cfg s with hbr | ⟨i, b, hb, hba, hbox, hbr⟩
  · refine ⟨by rw [hbr]; exact hne, by rw [hbr]; exact hgeom, hIW, hINW, ?_⟩
    rintro ⟨hu, -⟩
    have := hIW hu
    rw [hbr] at this
    omega
  · refine ⟨by rw [hbr]; exact deactivate_ne_nil hne i,
      by rw [hbr]; exact geom_deactivate hgeom i, hIW, hINW, ?_⟩
    rintro ⟨hu, hlost⟩
    have hzfall : (midState cfg s).ball_z < cfg.bottom - 0.1 :=
      ((simStep_new_flags cfg s hw hl).2 hlost).2
    have hmem : b ∈ s.bricks := List.get?_mem hb
    have h1 : cfg.bottom - 0.07 ≤ b.z_lo := hgeom b hmem
    have h2 : b.z_lo - 0.03 ≤ (midState cfg s).ball_z := hbox.1
    linarith

/-- One tick preserves the state-machine invariant. -/
lemma good_step (h : GoodState cfg s) : GoodState cfg (renderNextFrame cfg s) := by
  obtain ⟨hne, hgeom, hIW, hINW, hNB⟩ := h
  by_cases hl : s.lost = true
  · by_cases hd : s.loss_animation_frames + 1 < 120
    · rw [renderNextFrame_lost_anim cfg s hl hd]
      exact ⟨hne, hgeom, hIW, hINW, hNB⟩
    · rw [renderNextFrame_lost_reset cfg s hl (by omega)]
      refine simStep_good cfg _ rfl rfl ?_ ?_ ?_
      · rw [reset_game_bricks]
        intro hc
        exact hne (List.map_eq_nil_iff.mp hc)
      · rw [reset_game_bricks]
        exact geom_reset hgeom
      · rw [reset_game_bricks]
        exact activeCount_pos_reset hne
  · have hl' : s.lost = false := by
      revert hl; cases s.lost <;> simp
    by_cases hw : s.won = true
    · by_cases hd : s.win_animation_frames + 1 < 90
      · rw [renderNextFrame_win_anim cfg s hl' hw hd]
        exact ⟨hne, hgeom, hIW, hINW, hNB⟩
      · rw [renderNextFrame_win_reset cfg s hl' hw (by omega)]
        refine simStep_good cfg _ rfl rfl ?_ ?_ ?_
        · rw [reset_game_bricks]
          intro hc
          exact hne (List.map_eq_nil_iff.mp hc)
        · rw [reset_game_bricks]
          exact geom_reset hgeom
        · rw [reset_game_bricks]
          exact activeCount_pos_reset hne
    · have hw' : s.won = false := by
        revert hw; cases s.won <;> simp
      rw [renderNextFrame_playing cfg s hl' hw']
      exact simStep_good cfg _ hw' hl' hne hgeom (hINW hw')

/-- Every reachable state satisfies the state-machine invariant. -/
lemma reachable_good {s : GameState} (h : Reachable cfg s) : GoodState cfg s := by
  induction h with
  | init s hI =>
      obtain ⟨hw, hl, hne, hact, -, -, -, -, hgeom⟩ := hI
      refine ⟨hne, hgeom, ?_, ?_, ?_⟩
      · intro hc; rw [hw] at hc; cases hc
      · intro _
        rw [activeCount_pos_iff]
        obtain ⟨b, hb⟩ := List.exists_mem_of_ne_nil _ hne
        exact ⟨b, hb, hact b hb⟩
      · rintro ⟨hc, -⟩
        rw [hw] at hc; cases hc
  | step s hr ih => exact good_step cfg s ih

end InvariantLemmas

section CooldownLemmas

variable (cfg : Config) (s : GameState)

/-- A simulation step from a playing state with positive cooldown `c`
leaves every active flag unchanged and establishes `CooldownInv (c - 1)`. -/
lemma simStep_cooldownInv (c : ℕ) (hl : s.lost = false) (hw : s.won = false)
    (hcd : s.brick_hit_cooldown = c) (hc1 : 1 ≤ c) (hc5 : c ≤ 5) :
    activeFlags (simStep cfg s).bricks = activeFlags s.bricks ∧
    CooldownInv (c - 1) (simStep cfg s) := by
  have hc0 : 0 < s.brick_hit_cooldown := by omega
  obtain ⟨hbr, hcd'⟩ := simStep_cooldown_pos cfg s hc0
  refine ⟨by rw [hbr], ?_⟩
  by_cases hlost : (simStep cfg s).lost = true
  · right; left
    have := ((simStep_new_flags cfg s hw hl).2 hlost).1
    exact ⟨hlost, by omega⟩
  · have hlost' : (simStep cfg s).lost = false := by
      revert hlost; cases (simStep cfg s).lost <;> simp
    by_cases hwon : (simStep cfg s).won = true
    · right; right
      have := (simStep_new_flags cfg s hw hl).1 hwon
      exact ⟨hlost', hwon, by omega⟩
    · have hwon' : (simStep cfg s).won = false := by
        revert hwon; cases (simStep cfg s).won <;> simp
      left
      exact ⟨hlost', hwon', by omega⟩

/-- A simulation step from a playing state that destroys a brick ends in a
state satisfying `CooldownInv 5`. -/
lemma simStep_destroy_cooldownInv (hl : s.lost = false) (hw : s.won = false)
    (hdec : activeCount (simStep cfg s).bricks < activeCount s.bricks) :
    CooldownInv 5 (simStep cfg s) := by
  by_cases hlost : (simStep cfg s).lost = true
  · right; left
    have := ((simStep_new_flags cfg s hw hl).2 hlost).1
    exact ⟨hlost, by omega⟩
  · have hlost' : (simStep cfg s).lost = false := by
      revert hlost; cases (simStep cfg s).lost <;> simp
    by_cases hwon : (simStep cfg s).won = true
    · right; right
      have := (simStep_new_flags cfg s hw hl).1 hwon
      exact ⟨hlost', hwon, by omega⟩
    · have hwon' : (simStep cfg s).won = false := by
        revert hwon; cases (simStep cfg s).won <;> simp
      left
      obtain ⟨i, b, -, -, -, -, -, hcd5⟩ := simStep_destroy_hit cfg s hdec
      exact ⟨hlost', hwon', hcd5⟩

/-- While `CooldownInv c` holds with `1 ≤ c ≤ 5`, a tick cannot change any
active flag, and `CooldownInv (c - 1)` holds afterwards. -/
lemma cooldownInv_step (c : ℕ) (hc1 : 1 ≤ c) (hc5 : c ≤ 5) (h : CooldownInv c s) :
    activeFlags (renderNextFrame cfg s).bricks = activeFlags s.bricks ∧
    CooldownInv (c - 1) (renderNextFrame cfg s) := by
  rcases h with ⟨hl, hw, hcd⟩ | ⟨hl, hfr⟩ | ⟨hl, hw, hfr⟩
  · rw [renderNextFrame_playing cfg s hl hw]
    exact simStep_cooldownInv cfg { s with
      frame_count := s.frame_count + 1
      rotation_angle := wrapAngle (s.rotation_angle + cfg.rotation_speed) } c hl hw hcd hc1 hc5
  · have hd : s.loss_animation_frames + 1 < 120 := by omega
    rw [renderNextFrame_lost_anim cfg s hl hd]
    refine ⟨rfl, Or.inr (Or.inl ⟨hl, ?_⟩)⟩
    show s.loss_animation_frames + 1 + (c - 1) ≤ 119
    omega
  · have hd : s.win_animation_frames + 1 < 90 := by omega
    rw [renderNextFrame_win_anim cfg s hl hw hd]
    refine ⟨rfl, Or.inr (Or.inr ⟨hl, hw, ?_⟩)⟩
    show s.win_animation_frames + 1 + (c - 1) ≤ 89
    omega

/-- A playing tick that destroys a brick ends in a state satisfying
`CooldownInv 5`. -/
lemma destroy_cooldownInv (hl : s.lost = false) (hw : s.won = false)
    (hdec : activeCount (renderNextFrame cfg s).bricks < activeCount s.bricks) :
    CooldownInv 5 (renderNextFrame cfg s) := by
  rw [renderNextFrame_playing cfg s hl hw] at hdec ⊢
  exact simStep_destroy_cooldownInv cfg { s with
    frame_count := s.frame_count + 1
    rotation_angle := wrapAngle (s.rotation_angle + cfg.rotation_speed) } hl hw hdec

end CooldownLemmas

section CleanSimLemmas

variable (cfg : Config) (s : GameState)

/-- A simulation step from a playing state whose ball, after integration,
stays strictly below the top wall and every brick band and at or above the
fall line, with every brick active, changes neither the bricks, the flags,
the fall counter, the game count nor the rotation angle. -/
lemma simStep_clean (hw : s.won = false) (hl : s.lost = false)
    (hne : s.bricks ≠ []) (hact : ∀ b ∈ s.bricks, b.active = true)
    (htop : s.ball_z + s.ball_vz < cfg.top_wall)
    (hbrick : ∀ b ∈ s.bricks, s.ball_z + s.ball_vz < b.z_lo - 0.03)
    (hbot : cfg.bottom - 0.1 ≤ s.ball_z + s.ball_vz) :
    (simStep cfg s).bricks = s.bricks ∧ (simStep cfg s).won = false ∧
    (simStep cfg s).lost = false ∧
    (simStep cfg s).ball_fall_count = s.ball_fall_count ∧
    (simStep cfg s).game_count = s.game_count ∧
    (simStep cfg s).rotation_angle = s.rotation_angle := by
  have hmz : (midState cfg s).ball_z = s.ball_z + s.ball_vz := by
    show (if cfg.top_wall ≤ s.ball_z + s.ball_vz then cfg.top_wall
      else s.ball_z + s.ball_vz) = s.ball_z + s.ball_vz
    rw [if_neg (not_le.mpr htop)]
  have hbricks : (simStep cfg s).bricks = s.bricks := by
    by_cases hc : 0 < s.brick_hit_cooldown
    · exact (simStep_cooldown_pos cfg s hc).1
    · refine (simStep_no_hit cfg s (by omega) ?_).1
      rw [hitIndex, hitScan_eq_none_iff]
      rintro b hb ⟨-, hbox⟩
      have h1 : b.z_lo - 0.03 ≤ (midState cfg s).ball_z := hbox.1
      rw [hmz] at h1
      exact absurd h1 (not_le.mpr (hbrick b hb))
  have hqz : (brickStep (midState cfg s)).ball_z = s.ball_z + s.ball_vz := by
    rw [brickStep_ball_z, hmz]
  have hnofall : ¬ (brickStep (midState cfg s)).ball_z < cfg.bottom - 0.1 := by
    rw [hqz]; linarith
  have hfq : fallStep cfg (brickStep (midState cfg s)) = brickStep (midState cfg s) := by
    rcases fallStep_cases cfg (brickStep (midState cfg s)) with
      ⟨-, heqf⟩ | ⟨hf, -, -, -, -⟩ | ⟨hf, -, -, -, -⟩ | ⟨hf, -, -⟩ <;>
      first
        | exact heqf
        | exact absurd hf hnofall
  have hany : (fallStep cfg (brickStep (midState cfg s))).bricks.any (·.active) = true := by
    rw [fallStep_bricks]
    rcases Bool.eq_false_or_eq_true ((brickStep (midState cfg s)).bricks.any (·.active)) with ht | ht
    · exact ht
    · rw [any_active_eq_false_iff, activeCount_eq_zero_iff] at ht
      obtain ⟨b, hb⟩ := List.exists_mem_of_ne_nil _ hne
      have hbm : b ∈ (brickStep (midState cfg s)).bricks := by
        have h1 : (simStep cfg s).bricks = (brickStep (midState cfg s)).bricks := by
          rw [simStep_eq, winStep_bricks, fallStep_bricks]
        rw [← h1, hbricks] at ht ⊢
        exact hb
      have := ht b hbm
      rw [hact b (by
        have h1 : (simStep cfg s).bricks = (brickStep (midState cfg s)).bricks := by
          rw [simStep_eq, winStep_bricks, fallStep_bricks]
        rw [← h1, hbricks] at hbm
        exact hbm)] at this
      cases this
  have hws : winStep (fallStep cfg (brickStep (midState cfg s))) =
      fallStep cfg (brickStep (midState cfg s)) := by
    rcases winStep_cases (fallStep cfg (brickStep (midState cfg s))) with ⟨ha, -, -⟩ | ⟨-, heqw⟩
    · rw [hany] at ha; cases ha
    · exact heqw
  have hsim : simStep cfg s = fallStep cfg (brickStep (midState cfg s)) := by
    rw [simStep_eq, hws]
  rw [hsim, hfq]
  refine ⟨?_, by simp [hw], by simp [hl], by simp, by simp, by simp⟩
  have : (simStep cfg s).bricks = (brickStep (midState cfg s)).bricks := by
    rw [hsim, hfq]
  rw [← this, hbricks]

end CleanSimLemmas

/-- C10: respawning the ball (`_reset_ball`, used on a non-losing fall) and
resetting the game (`_reset_game`, used after a win or loss animation) both
leave the ball's horizontal velocity unchanged: only the position and the
sign of the vertical velocity are reset, so the pre-reset horizontal
velocity persists into the next life and the next game. -/
theorem resets_preserve_horizontal_velocity (cfg : Config) (s : GameState) :
    (reset_ball cfg s).ball_vy = s.ball_vy ∧
    (reset_game cfg s).ball_vy = s.ball_vy ∧
    (reset_ball cfg s).ball_y = s.paddle_y ∧
    (reset_ball cfg s).ball_z = cfg.paddle_z + 0.1 ∧
    (reset_ball cfg s).ball_vz = |s.ball_vz| ∧
    (reset_game cfg s).ball_y = s.paddle_y ∧
    (reset_game cfg s).ball_z = cfg.paddle_z + 0.1 ∧
    (reset_game cfg s).ball_vz = |s.ball_vz| :=
  ⟨rfl, rfl, rfl, rfl, rfl, rfl, rfl, rfl⟩

/-- C7: when, after integration and wall handling, the ball is inside the
paddle's collision zone (vertically within
`[paddle_z - ball_radius, paddle_z + collision_height]`, horizontally
strictly within half the paddle width of the paddle center), the vertical
velocity becomes its absolute value and the horizontal velocity becomes
`(offset / (paddle_width / 2)) * ball_speed`; a center hit yields zero
horizontal velocity and the magnitude scales linearly up to `ball_speed`
at the paddle edge. -/
theorem paddle_collision_response (cfg : Config) (s : GameState)
    (h : paddleHit cfg (wallStep cfg s)) (hwpos : 0 < cfg.paddle_width) :
    (paddleStep cfg (wallStep cfg s)).ball_vz = |(wallStep cfg s).ball_vz| ∧
    (paddleStep cfg (wallStep cfg s)).ball_vy =
      ((wallStep cfg s).ball_y - s.paddle_y) / (cfg.paddle_width / 2) * cfg.ball_speed ∧
    ((wallStep cfg s).ball_y = s.paddle_y → (paddleStep cfg (wallStep cfg s)).ball_vy = 0) ∧
    |(paddleStep cfg (wallStep cfg s)).ball_vy| =
      |(wallStep cfg s).ball_y - s.paddle_y| / (cfg.paddle_width / 2) * |cfg.ball_speed| := by
  have h2 : (paddleStep cfg (wallStep cfg s)).ball_vy =
      ((wallStep cfg s).ball_y - s.paddle_y) / (cfg.paddle_width / 2) * cfg.ball_speed := by
    show (if paddleHit cfg (wallStep cfg s) then
        ((wallStep cfg s).ball_y - (wallStep cfg s).paddle_y) / (cfg.paddle_width / 2) *
          cfg.ball_speed
      else (wallStep cfg s).ball_vy) =
      ((wallStep cfg s).ball_y - s.paddle_y) / (cfg.paddle_width / 2) * cfg.ball_speed
    rw [if_pos h, wallStep_paddle_y]
  refine ⟨?_, h2, ?_, ?_⟩
  · show (if paddleHit cfg (wallStep cfg s) then |(wallStep cfg s).ball_vz|
      else (wallStep cfg s).ball_vz) = |(wallStep cfg s).ball_vz|
    rw [if_pos h]
  · intro hy
    rw [h2, hy, sub_self, zero_div, zero_mul]
  · rw [h2, abs_mul, abs_div, abs_of_pos (by linarith : (0:ℚ) < cfg.paddle_width / 2)]

/-- Closed witness for `paddle_collision_response` at a concrete
configuration and state. -/
theorem paddle_collision_response_witness :
    (paddleHit cfgW (wallStep cfgW stPad) ∧ 0 < cfgW.paddle_width) ∧
    ((paddleStep cfgW (wallStep cfgW stPad)).ball_vz = |(wallStep cfgW stPad).ball_vz| ∧
     (paddleStep cfgW (wallStep cfgW stPad)).ball_vy =
       ((wallStep cfgW stPad).ball_y - stPad.paddle_y) / (cfgW.paddle_width / 2) * cfgW.ball_speed ∧
     ((wallStep cfgW stPad).ball_y = stPad.paddle_y →
       (paddleStep cfgW (wallStep cfgW stPad)).ball_vy = 0) ∧
     |(paddleStep cfgW (wallStep cfgW stPad)).ball_vy| =
       |(wallStep cfgW stPad).ball_y - stPad.paddle_y| / (cfgW.paddle_width / 2) *
         |cfgW.ball_speed|) := by
  have h : paddleHit cfgW (wallStep cfgW stPad) := by
    unfold paddleHit wallStep stPad stW cfgW
    norm_num [ballRadius, collisionHeight, clip, abs_lt, abs_le]
  have hw : (0:ℚ) < cfgW.paddle_width := by
    unfold cfgW
    norm_num
  exact ⟨⟨h, hw⟩, paddle_collision_response cfgW stPad h hw⟩

/-- C3: when the ball ends the move more than `0.1` below the bottom wall,
then with neither flag set the fall counter is incremented by exactly one
and the lost state is entered exactly when the new counter is a multiple of
three (otherwise the ball is respawned above the paddle and play
continues); with a flag already set the ball is always respawned and the
counter is unchanged. -/
theorem fall_handling (cfg : Config) (s : GameState)
    (hfall : (wallStep cfg s).ball_z < cfg.bottom - 0.1) :
    (s.won = false → s.lost = false →
      (move_ball cfg s).ball_fall_count = s.ball_fall_count + 1 ∧
      ((move_ball cfg s).lost = true ↔ (s.ball_fall_count + 1) % 3 = 0) ∧
      ((s.ball_fall_count + 1) % 3 ≠ 0 →
        (move_ball cfg s).lost = false ∧
        (move_ball cfg s).ball_z = cfg.paddle_z + 0.1 ∧
        (move_ball cfg s).ball_y = s.paddle_y)) ∧
    ((s.won = true ∨ s.lost = true) →
      (move_ball cfg s).ball_z = cfg.paddle_z + 0.1 ∧
      (move_ball cfg s).ball_y = s.paddle_y ∧
      (move_ball cfg s).ball_fall_count = s.ball_fall_count ∧
      (move_ball cfg s).lost = s.lost) := by
  have hmb : move_ball cfg s =
      winStep (fallStep cfg (brickStep (paddleStep cfg (wallStep cfg s)))) := rfl
  have hqz : (brickStep (paddleStep cfg (wallStep cfg s))).ball_z =
      (wallStep cfg s).ball_z := by
    rw [brickStep_ball_z, paddleStep_ball_z]
  have hqw : (brickStep (paddleStep cfg (wallStep cfg s))).won = s.won := by
    rw [brickStep_won, paddleStep_won, wallStep_won]
  have hql : (brickStep (paddleStep cfg (wallStep cfg s))).lost = s.lost := by
    rw [brickStep_lost, paddleStep_lost, wallStep_lost]
  have hqf : (brickStep (paddleStep cfg (wallStep cfg s))).ball_fall_count =
      s.ball_fall_count := by
    rw [brickStep_fall, paddleStep_fall, wallStep_fall]
  have hqp : (brickStep (paddleStep cfg (wallStep cfg s))).paddle_y = s.paddle_y := by
    rw [brickStep_paddle_y, paddleStep_paddle_y, wallStep_paddle_y]
  constructor
  · intro hw hl
    rcases fallStep_cases cfg (brickStep (paddleStep cfg (wallStep cfg s))) with
      ⟨hnf, -⟩ | ⟨-, -, -, hmod, heqf⟩ | ⟨-, -, -, hmod, heqf⟩ | ⟨-, hflags, -⟩
    · rw [hqz] at hnf
      exact absurd hfall hnf
    · rw [hqf] at hmod
      rw [hmb, heqf]
      refine ⟨by simp [hqf], by simp [hmod], fun hmod' => absurd hmod hmod'⟩
    · rw [hqf] at hmod
      rw [hmb, heqf]
      have hlost : (winStep (reset_ball cfg { brickStep (paddleStep cfg (wallStep cfg s)) with
          ball_fall_count := (brickStep (paddleStep cfg (wallStep cfg s))).ball_fall_count + 1 })).lost = false := by
        simp only [winStep_lost, reset_ball_lost]
        show (brickStep (paddleStep cfg (wallStep cfg s))).lost = false
        rw [hql]
        exact hl
      refine ⟨by simp [hqf], by simp [hmod, hl], ?_⟩
      intro _
      refine ⟨hlost, by simp, ?_⟩
      simp only [winStep_ball_y, reset_ball_ball_y]
      exact hqp
    · rw [hqw, hql] at hflags
      exact absurd ⟨hw, hl⟩ hflags
  · intro hflag
    rcases fallStep_cases cfg (brickStep (paddleStep cfg (wallStep cfg s))) with
      ⟨hnf, -⟩ | ⟨-, hw2, hl2, -, -⟩ | ⟨-, hw2, hl2, -, -⟩ | ⟨-, -, heqf⟩
    · rw [hqz] at hnf
      exact absurd hfall hnf
    · rw [hqw] at hw2
      rw [hql] at hl2
      rcases hflag with hx | hx <;> simp_all
    · rw [hqw] at hw2
      rw [hql] at hl2
      rcases hflag with hx | hx <;> simp_all
    · rw [hmb, heqf]
      exact ⟨by simp, by simp [hqp], by simp [hqf], by simp [hql]⟩

/-- Closed witness for `fall_handling` at a concrete configuration and
state in the playing state. -/
theorem fall_handling_witness :
    (wallStep cfgW stFall).ball_z < cfgW.bottom - 0.1 ∧
    ((stFall.won = false → stFall.lost = false →
      (move_ball cfgW stFall).ball_fall_count = stFall.ball_fall_count + 1 ∧
      ((move_ball cfgW stFall).lost = true ↔ (stFall.ball_fall_count + 1) % 3 = 0) ∧
      ((stFall.ball_fall_count + 1) % 3 ≠ 0 →
        (move_ball cfgW stFall).lost = false ∧
        (move_ball cfgW stFall).ball_z = cfgW.paddle_z + 0.1 ∧
        (move_ball cfgW stFall).ball_y = stFall.paddle_y)) ∧
    ((stFall.won = true ∨ stFall.lost = true) →
      (move_ball cfgW stFall).ball_z = cfgW.paddle_z + 0.1 ∧
      (move_ball cfgW stFall).ball_y = stFall.paddle_y ∧
      (move_ball cfgW stFall).ball_fall_count = stFall.ball_fall_count ∧
      (move_ball cfgW stFall).lost = stFall.lost)) := by
  have h : (wallStep cfgW stFall).ball_z < cfgW.bottom - 0.1 := by
    unfold wallStep stFall stW cfgW
    norm_num
  exact ⟨h, fall_handling cfgW stFall h⟩

/-- Counterexample to C4: on an animating tick (loss animation running) the
rotation angle IS advanced — `renderNextFrame` adds the rotation speed at
the top of every tick, before the animation branches return. -/
theorem animation_rotation_counterexample :
    stLost.lost = true ∧ stLost.loss_animation_frames + 1 < 120 ∧
    (renderNextFrame cfgW stLost).ball_y = stLost.ball_y ∧
    (renderNextFrame cfgW stLost).rotation_angle ≠ stLost.rotation_angle := by
  have e1 : renderNextFrame cfgW stLost = { stLost with
      frame_count := stLost.frame_count + 1
      rotation_angle := wrapAngle (stLost.rotation_angle + cfgW.rotation_speed)
      loss_animation_frames := stLost.loss_animation_frames + 1 } :=
    renderNextFrame_lost_anim cfgW stLost rfl (by norm_num [stLost, stW])
  refine ⟨rfl, by norm_num [stLost, stW], by rw [e1], ?_⟩
  rw [e1]
  show wrapAngle (stLost.rotation_angle + cfgW.rotation_speed) ≠ stLost.rotation_angle
  unfold wrapAngle
  rw [if_neg (show ¬ twoPi < stLost.rotation_angle + cfgW.rotation_speed by
      norm_num [twoPi, npPi, stLost, stW, cfgW]),
    if_neg (show ¬ stLost.rotation_angle + cfgW.rotation_speed < 0 by
      norm_num [stLost, stW, cfgW])]
  norm_num [stLost, stW, cfgW]

/-- C4 (amended): on every animating tick (win or loss animation running
and not yet at its duration), the tick renders only the matching effect and
returns without running the game simulation — ball, paddle, bricks and all
game counters are unchanged — but the rotation angle IS advanced (by
`rotation_speed`, wrapped), on this tick as on every other. -/
theorem animation_tick_amended (cfg : Config) (orc : Oracle) (s : GameState)
    (h : (s.lost = true ∧ s.loss_animation_frames + 1 < 120) ∨
         (s.lost = false ∧ s.won = true ∧ s.win_animation_frames + 1 < 90)) :
    (renderNextFrame cfg s).rotation_angle = wrapAngle (s.rotation_angle + cfg.rotation_speed) ∧
    (renderNextFrame cfg s).ball_y = s.ball_y ∧
    (renderNextFrame cfg s).ball_z = s.ball_z ∧
    (renderNextFrame cfg s).ball_vy = s.ball_vy ∧
    (renderNextFrame cfg s).ball_vz = s.ball_vz ∧
    (renderNextFrame cfg s).paddle_y = s.paddle_y ∧
    (renderNextFrame cfg s).bricks = s.bricks ∧
    (renderNextFrame cfg s).ball_fall_count = s.ball_fall_count ∧
    (renderNextFrame cfg s).brick_hit_cooldown = s.brick_hit_cooldown ∧
    (renderNextFrame cfg s).game_count = s.game_count ∧
    (s.lost = true → renderNextFrameBuf cfg orc s = lossBuf cfg (s.loss_animation_frames + 1)) ∧
    (s.lost = false → renderNextFrameBuf cfg orc s = winBuf cfg orc) := by
  rcases h with ⟨hl, hd⟩ | ⟨hl, hw, hd⟩
  · rw [renderNextFrame_lost_anim cfg s hl hd]
    refine ⟨rfl, rfl, rfl, rfl, rfl, rfl, rfl, rfl, rfl, rfl, ?_, ?_⟩
    · intro _
      unfold renderNextFrameBuf
      rw [if_pos ⟨hl, hd⟩]
    · intro hl'
      rw [hl] at hl'
      cases hl'
  · rw [renderNextFrame_win_anim cfg s hl hw hd]
    refine ⟨rfl, rfl, rfl, rfl, rfl, rfl, rfl, rfl, rfl, rfl, ?_, ?_⟩
    · intro hl'
      rw [hl] at hl'
      cases hl'
    · intro _
      unfold renderNextFrameBuf
      rw [if_neg (by rintro ⟨hc, -⟩; rw [hl] at hc; cases hc), if_pos ⟨hl, hw, hd⟩]

/-- Closed witness for `animation_tick_amended` at a concrete loss-animation
state. -/
theorem animation_tick_amended_witness :
    ((stLost.lost = true ∧ stLost.loss_animation_frames + 1 < 120) ∨
     (stLost.lost = false ∧ stLost.won = true ∧ stLost.win_animation_frames + 1 < 90)) ∧
    ((renderNextFrame cfgW stLost).rotation_angle =
      wrapAngle (stLost.rotation_angle + cfgW.rotation_speed) ∧
    (renderNextFrame cfgW stLost).ball_y = stLost.ball_y ∧
    (renderNextFrame cfgW stLost).ball_z = stLost.ball_z ∧
    (renderNextFrame cfgW stLost).ball_vy = stLost.ball_vy ∧
    (renderNextFrame cfgW stLost).ball_vz = stLost.ball_vz ∧
    (renderNextFrame cfgW stLost).paddle_y = stLost.paddle_y ∧
    (renderNextFrame cfgW stLost).bricks = stLost.bricks ∧
    (renderNextFrame cfgW stLost).ball_fall_count = stLost.ball_fall_count ∧
    (renderNextFrame cfgW stLost).brick_hit_cooldown = stLost.brick_hit_cooldown ∧
    (renderNextFrame cfgW stLost).game_count = stLost.game_count ∧
    (stLost.lost = true →
      renderNextFrameBuf cfgW orcW stLost = lossBuf cfgW (stLost.loss_animation_frames + 1)) ∧
    (stLost.lost = false → renderNextFrameBuf cfgW orcW stLost = winBuf cfgW orcW)) := by
  have h : (stLost.lost = true ∧ stLost.loss_animation_frames + 1 < 120) ∨
      (stLost.lost = false ∧ stLost.won = true ∧ stLost.win_animation_frames + 1 < 90) :=
    Or.inl ⟨rfl, by norm_num [stLost, stW]⟩
  exact ⟨h, animation_tick_amended cfgW orcW stLost h⟩

/-- C5: on the tick that brings the loss animation to its 120-tick
duration, the game resets: the state returns to playing (neither flag
set), every brick is active again and the fall counter is zero at the end
of the tick.  The geometric hypotheses record the constructor facts that
the respawned ball starts below the top wall and every brick band and at
or above the fall line. -/
theorem loss_reset_returns_to_playing (cfg : Config) (s : GameState)
    (hl : s.lost = true) (hw : s.won = false)
    (hfr : s.loss_animation_frames = 119)
    (hne : s.bricks ≠ [])
    (hvz : |s.ball_vz| ≤ cfg.ball_speed)
    (htop : cfg.paddle_z + 0.1 + cfg.ball_speed < cfg.top_wall)
    (hbrick : ∀ b ∈ s.bricks, cfg.paddle_z + 0.1 + cfg.ball_speed < b.z_lo - 0.03)
    (hbot : cfg.bottom ≤ cfg.paddle_z) :
    (renderNextFrame cfg s).lost = false ∧ (renderNextFrame cfg s).won = false ∧
    (∀ b ∈ (renderNextFrame cfg s).bricks, b.active = true) ∧
    (renderNextFrame cfg s).ball_fall_count = 0 := by
  rw [renderNextFrame_lost_reset cfg s hl (by omega)]
  have habs : (0:ℚ) ≤ |s.ball_vz| := abs_nonneg _
  obtain ⟨hbricks, hwon, hlost, hfall, -, -⟩ :=
    simStep_clean cfg (reset_game cfg { s with
        frame_count := s.frame_count + 1
        rotation_angle := wrapAngle (s.rotation_angle + cfg.rotation_speed)
        loss_animation_frames := s.loss_animation_frames + 1 })
      rfl rfl
      (by
        rw [reset_game_bricks]
        intro hc
        exact hne (List.map_eq_nil_iff.mp hc))
      (by
        rw [reset_game_bricks]
        intro b hb
        obtain ⟨c, -, rfl⟩ := List.mem_map.mp hb
        rfl)
      (by
        show cfg.paddle_z + 0.1 + |s.ball_vz| < cfg.top_wall
        linarith)
      (by
        rw [reset_game_bricks]
        intro b hb
        obtain ⟨c, hc, rfl⟩ := List.mem_map.mp hb
        show cfg.paddle_z + 0.1 + |s.ball_vz| < c.z_lo - 0.03
        have := hbrick c hc
        linarith)
      (by
        show cfg.bottom - 0.1 ≤ cfg.paddle_z + 0.1 + |s.ball_vz|
        linarith)
  refine ⟨hlost, hwon, ?_, hfall⟩
  rw [hbricks, reset_game_bricks]
  intro b hb
  obtain ⟨c, -, rfl⟩ := List.mem_map.mp hb
  rfl

/-- Closed witness for `loss_reset_returns_to_playing`. -/
theorem loss_reset_returns_to_playing_witness :
    (stLost119.lost = true ∧ stLost119.won = false ∧
     stLost119.loss_animation_frames = 119 ∧ stLost119.bricks ≠ [] ∧
     |stLost119.ball_vz| ≤ cfgW.ball_speed ∧
     cfgW.paddle_z + 0.1 + cfgW.ball_speed < cfgW.top_wall ∧
     (∀ b ∈ stLost119.bricks, cfgW.paddle_z + 0.1 + cfgW.ball_speed < b.z_lo - 0.03) ∧
     cfgW.bottom ≤ cfgW.paddle_z) ∧
    ((renderNextFrame cfgW stLost119).lost = false ∧
     (renderNextFrame cfgW stLost119).won = false ∧
     (∀ b ∈ (renderNextFrame cfgW stLost119).bricks, b.active = true) ∧
     (renderNextFrame cfgW stLost119).ball_fall_count = 0) := by
  have h1 : stLost119.lost = true := rfl
  have h2 : stLost119.won = false := rfl
  have h3 : stLost119.loss_animation_frames = 119 := rfl
  have h4 : stLost119.bricks ≠ [] := by
    unfold stLost119 stW
    simp
  have h5 : |stLost119.ball_vz| ≤ cfgW.ball_speed := by
    unfold stLost119 stW cfgW
    norm_num [abs_le]
  have h6 : cfgW.paddle_z + 0.1 + cfgW.ball_speed < cfgW.top_wall := by
    unfold cfgW
    norm_num
  have h7 : ∀ b ∈ stLost119.bricks, cfgW.paddle_z + 0.1 + cfgW.ball_speed < b.z_lo - 0.03 := by
    unfold stLost119 stW cfgW brickW
    norm_num
  have h8 : cfgW.bottom ≤ cfgW.paddle_z := by
    unfold cfgW
    norm_num
  exact ⟨⟨h1, h2, h3, h4, h5, h6, h7, h8⟩,
    loss_reset_returns_to_playing cfgW stLost119 h1 h2 h3 h4 h5 h6 h7 h8⟩

/-- C6: on the tick that brings the win animation to its 90-tick duration,
the game resets: the state returns to playing, the game count advances by
one and the rotation angle equals `(2π/6) * (new game_count mod 6)` (with
`π` the source's `np.pi` constant) at the end of the tick. -/
theorem win_reset_advances_face (cfg : Config) (s : GameState)
    (hl : s.lost = false) (hw : s.won = true)
    (hfr : s.win_animation_frames = 89)
    (hne : s.bricks ≠ [])
    (hvz : |s.ball_vz| ≤ cfg.ball_speed)
    (htop : cfg.paddle_z + 0.1 + cfg.ball_speed < cfg.top_wall)
    (hbrick : ∀ b ∈ s.bricks, cfg.paddle_z + 0.1 + cfg.ball_speed < b.z_lo - 0.03)
    (hbot : cfg.bottom ≤ cfg.paddle_z) :
    (renderNextFrame cfg s).lost = false ∧ (renderNextFrame cfg s).won = false ∧
    (renderNextFrame cfg s).game_count = s.game_count + 1 ∧
    (renderNextFrame cfg s).rotation_angle =
      2 * npPi / 6 * (((s.game_count + 1) % 6 : ℕ) : ℚ) := by
  rw [renderNextFrame_win_reset cfg s hl hw (by omega)]
  have habs : (0:ℚ) ≤ |s.ball_vz| := abs_nonneg _
  obtain ⟨-, hwon, hlost, -, hgc, hrot⟩ :=
    simStep_clean cfg (reset_game cfg { s with
        frame_count := s.frame_count + 1
        rotation_angle := wrapAngle (s.rotation_angle + cfg.rotation_speed)
        win_animation_frames := s.win_animation_frames + 1 })
      rfl rfl
      (by
        rw [reset_game_bricks]
        intro hc
        exact hne (List.map_eq_nil_iff.mp hc))
      (by
        rw [reset_game_bricks]
        intro b hb
        obtain ⟨c, -, rfl⟩ := List.mem_map.mp hb
        rfl)
      (by
        show cfg.paddle_z + 0.1 + |s.ball_vz| < cfg.top_wall
        linarith)
      (by
        rw [reset_game_bricks]
        intro b hb
        obtain ⟨c, hc, rfl⟩ := List.mem_map.mp hb
        show cfg.paddle_z + 0.1 + |s.ball_vz| < c.z_lo - 0.03
        have := hbrick c hc
        linarith)
      (by
        show cfg.bottom - 0.1 ≤ cfg.paddle_z + 0.1 + |s.ball_vz|
        linarith)
  refine ⟨hlost, hwon, ?_, ?_⟩
  · rw [hgc]
    rfl
  · rw [hrot]
    rfl

/-- Closed witness for `win_reset_advances_face`. -/
theorem win_reset_advances_face_witness :
    (stWon89.lost = false ∧ stWon89.won = true ∧
     stWon89.win_animation_frames = 89 ∧ stWon89.bricks ≠ [] ∧
     |stWon89.ball_vz| ≤ cfgW.ball_speed ∧
     cfgW.paddle_z + 0.1 + cfgW.ball_speed < cfgW.top_wall ∧
     (∀ b ∈ stWon89.bricks, cfgW.paddle_z + 0.1 + cfgW.ball_speed < b.z_lo - 0.03) ∧
     cfgW.bottom ≤ cfgW.paddle_z) ∧
    ((renderNextFrame cfgW stWon89).lost = false ∧
     (renderNextFrame cfgW stWon89).won = false ∧
     (renderNextFrame cfgW stWon89).game_count = stWon89.game_count + 1 ∧
     (renderNextFrame cfgW stWon89).rotation_angle =
       2 * npPi / 6 * (((stWon89.game_count + 1) % 6 : ℕ) : ℚ)) := by
  have h1 : stWon89.lost = false := rfl
  have h2 : stWon89.won = true := rfl
  have h3 : stWon89.win_animation_frames = 89 := rfl
  have h4 : stWon89.bricks ≠ [] := by
    unfold stWon89 stW
    simp
  have h5 : |stWon89.ball_vz| ≤ cfgW.ball_speed := by
    unfold stWon89 stW cfgW
    norm_num [abs_le]
  have h6 : cfgW.paddle_z + 0.1 + cfgW.ball_speed < cfgW.top_wall := by
    unfold cfgW
    norm_num
  have h7 : ∀ b ∈ stWon89.bricks, cfgW.paddle_z + 0.1 + cfgW.ball_speed < b.z_lo - 0.03 := by
    unfold stWon89 stW cfgW brickW
    norm_num
  have h8 : cfgW.bottom ≤ cfgW.paddle_z := by
    unfold cfgW
    norm_num
  exact ⟨⟨h1, h2, h3, h4, h5, h6, h7, h8⟩,
    win_reset_advances_face cfgW stWon89 h1 h2 h3 h4 h5 h6 h7 h8⟩

/-- C9: in every state reachable from an initial state, the won flag and
the lost flag are never both set. -/
theorem flags_never_both (cfg : Config) (s : GameState) (h : Reachable cfg s) :
    ¬ (s.won = true ∧ s.lost = true) :=
  (reachable_good cfg h).2.2.2.2

/-- Closed witness for `flags_never_both` at a concrete initial state. -/
theorem flags_never_both_witness :
    Init cfgW stW ∧ ¬ (stW.won = true ∧ stW.lost = true) := by
  have hI : Init cfgW stW := by
    unfold Init stW cfgW brickW
    norm_num
  exact ⟨hI, flags_never_both cfgW stW (Reachable.init stW hI)⟩

/-- C2: for every reachable state, the tick newly sets the won flag exactly
when the number of active bricks goes from positive at the start of the
tick to zero at its end; equivalently, exactly when at the end of the tick
no brick is active and the flag was not already set. -/
theorem win_transition_iff (cfg : Config) (s : GameState) (h : Reachable cfg s) :
    (((renderNextFrame cfg s).won = true ∧ s.won = false) ↔
      (0 < activeCount s.bricks ∧ activeCount (renderNextFrame cfg s).bricks = 0)) ∧
    (((renderNextFrame cfg s).won = true ∧ s.won = false) ↔
      (activeCount (renderNextFrame cfg s).bricks = 0 ∧ s.won = false)) := by
  obtain ⟨-, -, hIW, hINW, -⟩ := reachable_good cfg h
  obtain ⟨-, -, hIW', hINW', -⟩ := reachable_good cfg (Reachable.step s h)
  have hcore : (renderNextFrame cfg s).won = true ↔
      activeCount (renderNextFrame cfg s).bricks = 0 := by
    constructor
    · exact hIW'
    · intro hc
      rcases Bool.eq_false_or_eq_true ((renderNextFrame cfg s).won) with ht | ht
      · exact ht
      · have := hINW' ht
        omega
  constructor
  · constructor
    · rintro ⟨hw', hw⟩
      exact ⟨hINW hw, hcore.mp hw'⟩
    · rintro ⟨hpos, hzero⟩
      refine ⟨hcore.mpr hzero, ?_⟩
      rcases Bool.eq_false_or_eq_true s.won with ht | ht
      · have := hIW ht
        omega
      · exact ht
  · constructor
    · rintro ⟨hw', hw⟩
      exact ⟨hcore.mp hw', hw⟩
    · rintro ⟨hzero, hw⟩
      exact ⟨hcore.mpr hzero, hw⟩

/-- Closed witness for `win_transition_iff` at a concrete initial state. -/
theorem win_transition_iff_witness :
    Init cfgW stW ∧
    ((((renderNextFrame cfgW stW).won = true ∧ stW.won = false) ↔
      (0 < activeCount stW.bricks ∧ activeCount (renderNextFrame cfgW stW).bricks = 0)) ∧
    (((renderNextFrame cfgW stW).won = true ∧ stW.won = false) ↔
      (activeCount (renderNextFrame cfgW stW).bricks = 0 ∧ stW.won = false))) := by
  have hI : Init cfgW stW := by
    unfold Init stW cfgW brickW
    norm_num
  exact ⟨hI, win_transition_iff cfgW stW (Reachable.init stW hI)⟩

/-- C1: on a playing tick, brick collision is skipped (and the cooldown
decremented) while the cooldown is positive; otherwise the first active
brick (in index order) whose box expanded by `0.03` vertically and `0.05`
horizontally contains the in-tick ball position is deactivated, the
vertical velocity is negated, the cooldown is set to five and the scan
stops, so at most one brick is destroyed per tick; and after a tick that
destroys a brick no active flag changes during the next four ticks. -/
theorem brick_collision_cooldown (cfg : Config) (s : GameState)
    (hl : s.lost = false) (hw : s.won = false) :
    (0 < s.brick_hit_cooldown →
      (renderNextFrame cfg s).bricks = s.bricks ∧
      (renderNextFrame cfg s).brick_hit_cooldown = s.brick_hit_cooldown - 1) ∧
    (s.brick_hit_cooldown = 0 →
      hitIndex s.bricks (midState cfg s).ball_y (midState cfg s).ball_z = none →
      (renderNextFrame cfg s).bricks = s.bricks ∧
      (renderNextFrame cfg s).brick_hit_cooldown = 0) ∧
    (∀ i, s.brick_hit_cooldown = 0 →
      hitIndex s.bricks (midState cfg s).ball_y (midState cfg s).ball_z = some i →
      (∃ b, s.bricks.get? i = some b ∧ b.active = true ∧
        inBrickBox b (midState cfg s).ball_y (midState cfg s).ball_z) ∧
      (∀ m, m < i → ∀ c, s.bricks.get? m = some c →
        ¬ (c.active = true ∧ inBrickBox c (midState cfg s).ball_y (midState cfg s).ball_z)) ∧
      (renderNextFrame cfg s).bricks = deactivate s.bricks i ∧
      activeFlags (renderNextFrame cfg s).bricks = (activeFlags s.bricks).set i false ∧
      (renderNextFrame cfg s).brick_hit_cooldown = 5 ∧
      (brickStep (midState cfg s)).ball_vz = -(midState cfg s).ball_vz) ∧
    activeCount s.bricks ≤ activeCount (renderNextFrame cfg s).bricks + 1 ∧
    (activeCount (renderNextFrame cfg s).bricks < activeCount s.bricks →
      ∀ k, k ≤ 4 →
        activeFlags ((renderNextFrame cfg)^[k] (renderNextFrame cfg s)).bricks =
          activeFlags (renderNextFrame cfg s).bricks) := by
  have e : renderNextFrame cfg s = simStep cfg { s with
      frame_count := s.frame_count + 1
      rotation_angle := wrapAngle (s.rotation_angle + cfg.rotation_speed) } :=
    renderNextFrame_playing cfg s hl hw
  refine ⟨?_, ?_, ?_, ?_, ?_⟩
  · intro hc
    rw [e]
    exact simStep_cooldown_pos cfg _ hc
  · intro hc hn
    rw [e]
    exact simStep_no_hit cfg { s with
      frame_count := s.frame_count + 1
      rotation_angle := wrapAngle (s.rotation_angle + cfg.rotation_speed) } hc hn
  · intro i hc hi
    have hi' : hitScan (midState cfg s).ball_y (midState cfg s).ball_z s.bricks 0 = some i := hi
    obtain ⟨-, ⟨b, hb, hba, hbb⟩, hmin⟩ :=
      hitScan_eq_some (midState cfg s).ball_y (midState cfg s).ball_z s.bricks 0 i hi'
    rw [Nat.sub_zero] at hb hmin
    obtain ⟨hbricks, hcd⟩ := simStep_hit cfg { s with
      frame_count := s.frame_count + 1
      rotation_angle := wrapAngle (s.rotation_angle + cfg.rotation_speed) } hc i hi
    refine ⟨⟨b, hb, hba, hbb⟩, ?_, ?_, ?_, ?_, ?_⟩
    · intro m hm c hcm
      exact hmin m hm c hcm
    · rw [e]
      exact hbricks
    · rw [e, hbricks]
      exact activeFlags_deactivate s.bricks i
    · rw [e]
      exact hcd
    · rcases brickStep_cases (midState cfg s) with ⟨h1, -⟩ | ⟨-, hn, -⟩ | ⟨j, -, hsome, heq⟩
      · rw [midState_cooldown] at h1
        omega
      · rw [midState_bricks, hi] at hn
        cases hn
      · rw [midState_bricks, hi] at hsome
        obtain rfl : j = i := by
          injection hsome with hji
          exact hji.symm
        rw [heq]
  · rw [e]
    exact simStep_activeCount_le cfg { s with
      frame_count := s.frame_count + 1
      rotation_angle := wrapAngle (s.rotation_angle + cfg.rotation_speed) }
  · intro hdec k hk
    have h5 : CooldownInv 5 (renderNextFrame cfg s) := destroy_cooldownInv cfg s hl hw hdec
    obtain ⟨e1, h4⟩ :=
      cooldownInv_step cfg (renderNextFrame cfg s) 5 (by norm_num) (by norm_num) h5
    obtain ⟨e2, h3⟩ :=
      cooldownInv_step cfg (renderNextFrame cfg (renderNextFrame cfg s)) 4
        (by norm_num) (by norm_num) h4
    obtain ⟨e3, h2⟩ :=
      cooldownInv_step cfg
        (renderNextFrame cfg (renderNextFrame cfg (renderNextFrame cfg s))) 3
        (by norm_num) (by norm_num) h3
    obtain ⟨e4, -⟩ :=
      cooldownInv_step cfg
        (renderNextFrame cfg (renderNextFrame cfg (renderNextFrame cfg (renderNextFrame cfg s)))) 2
        (by norm_num) (by norm_num) h2
    interval_cases k
    · rfl
    · exact e1
    · exact e2.trans e1
    · exact e3.trans (e2.trans e1)
    · exact e4.trans (e3.trans (e2.trans e1))

/-- Closed witness for `brick_collision_cooldown` at a concrete playing
state. -/
theorem brick_collision_cooldown_witness :
    stW.lost = false ∧ stW.won = false ∧
    ((0 < stW.brick_hit_cooldown →
      (renderNextFrame cfgW stW).bricks = stW.bricks ∧
      (renderNextFrame cfgW stW).brick_hit_cooldown = stW.brick_hit_cooldown - 1) ∧
    (stW.brick_hit_cooldown = 0 →
      hitIndex stW.bricks (midState cfgW stW).ball_y (midState cfgW stW).ball_z = none →
      (renderNextFrame cfgW stW).bricks = stW.bricks ∧
      (renderNextFrame cfgW stW).brick_hit_cooldown = 0) ∧
    (∀ i, stW.brick_hit_cooldown = 0 →
      hitIndex stW.bricks (midState cfgW stW).ball_y (midState cfgW stW).ball_z = some i →
      (∃ b, stW.bricks.get? i = some b ∧ b.active = true ∧
        inBrickBox b (midState cfgW stW).ball_y (midState cfgW stW).ball_z) ∧
      (∀ m, m < i → ∀ c, stW.bricks.get? m = some c →
        ¬ (c.active = true ∧ inBrickBox c (midState cfgW stW).ball_y (midState cfgW stW).ball_z)) ∧
      (renderNextFrame cfgW stW).bricks = deactivate stW.bricks i ∧
      activeFlags (renderNextFrame cfgW stW).bricks = (activeFlags stW.bricks).set i false ∧
      (renderNextFrame cfgW stW).brick_hit_cooldown = 5 ∧
      (brickStep (midState cfgW stW)).ball_vz = -(midState cfgW stW).ball_vz) ∧
    activeCount stW.bricks ≤ activeCount (renderNextFrame cfgW stW).bricks + 1 ∧
    (activeCount (renderNextFrame cfgW stW).bricks < activeCount stW.bricks →
      ∀ k, k ≤ 4 →
        activeFlags ((renderNextFrame cfgW)^[k] (renderNextFrame cfgW stW)).bricks =
          activeFlags (renderNextFrame cfgW stW).bricks)) :=
  ⟨rfl, rfl, brick_collision_cooldown cfgW stW rfl rfl⟩

section BufferLemmas

lemma length_maskStore (m : ℕ → Bool) (c : RGB) (buf : List RGB) :
    (maskStore m c buf).length = buf.length := by
  unfold maskStore
  rw [List.length_map, List.length_zip, List.length_range, min_self]

lemma mem_maskStore (m : ℕ → Bool) (c : RGB) (buf : List RGB) :
    ∀ e ∈ maskStore m c buf, e = c ∨ e ∈ buf := by
  intro e he
  unfold maskStore at he
  obtain ⟨⟨a, j⟩, hp, hpe⟩ := List.mem_map.mp he
  by_cases hm : m j = true
  · rw [if_pos hm] at hpe
    exact Or.inl hpe.symm
  · rw [if_neg hm] at hpe
    exact Or.inr (hpe ▸ (List.of_mem_zip hp).1)

lemma length_writeIdxs (c : RGB) (idxs : List ℕ) (buf : List RGB) :
    (writeIdxs buf idxs c).length = buf.length := by
  induction idxs generalizing buf with
  | nil => rfl
  | cons a as ih =>
      show (writeIdxs (buf.set a c) as c).length = buf.length
      rw [ih (buf.set a c), List.length_set]

lemma mem_writeIdxs (c : RGB) (idxs : List ℕ) (buf : List RGB) :
    ∀ e ∈ writeIdxs buf idxs c, e = c ∨ e ∈ buf := by
  induction idxs generalizing buf with
  | nil => exact fun e he => Or.inr he
  | cons a as ih =>
      intro e he
      rcases ih (buf.set a c) e he with h | h
      · exact Or.inl h
      · rcases List.mem_or_eq_of_mem_set h with h2 | h2
        · exact Or.inr h2
        · exact Or.inl h2

lemma length_drawBricks (bricks : List Brick) (buf : List RGB) (i : ℕ) :
    (drawBricks buf bricks i).length = buf.length := by
  induction bricks generalizing buf i with
  | nil => rfl
  | cons b bs ih =>
      show (drawBricks (if b.active = true then writeIdxs buf b.indices (brickColor i) else buf)
        bs (i + 1)).length = buf.length
      rw [ih]
      by_cases hb : b.active = true
      · rw [if_pos hb, length_writeIdxs]
      · rw [if_neg hb]

lemma mem_drawBricks (bricks : List Brick) (buf : List RGB) (i : ℕ) :
    ∀ e ∈ drawBricks buf bricks i, (∃ k, e = brickColor k) ∨ e ∈ buf := by
  induction bricks generalizing buf i with
  | nil => exact fun e he => Or.inr he
  | cons b bs ih =>
      intro e he
      rcases ih (if b.active = true then writeIdxs buf b.indices (brickColor i) else buf)
          (i + 1) e he with h | h
      · exact Or.inl h
      · by_cases hb : b.active = true
        · rw [if_pos hb] at h
          rcases mem_writeIdxs (brickColor i) b.indices buf e h with h2 | h2
          · exact Or.inl ⟨i, h2⟩
          · exact Or.inr h2
        · rw [if_neg hb] at h
          exact Or.inr h

lemma clip_bounds (x : ℚ) : 0 ≤ clip x 0 1 ∧ clip x 0 1 ≤ 1 := by
  unfold clip
  constructor
  · exact le_min (le_max_right x 0) (by norm_num)
  · exact min_le_right _ _

lemma toUint8_bounds {x : ℚ} (h0 : 0 ≤ x) (h255 : x ≤ 255) :
    0 ≤ toUint8 x ∧ toUint8 x ≤ 255 := by
  unfold toUint8
  refine ⟨Int.floor_nonneg.mpr h0, ?_⟩
  have h : (⌊x⌋ : ℤ) ≤ ⌊(255:ℚ)⌋ := Int.floor_le_floor h255
  have h2 : (⌊(255:ℚ)⌋ : ℤ) = 255 := by norm_num
  omega

lemma brickColor_bounds (k : ℕ) :
    0 ≤ (brickColor k).1 ∧ (brickColor k).1 ≤ 255 ∧ 0 ≤ (brickColor k).2.1 ∧
    (brickColor k).2.1 ≤ 255 ∧ 0 ≤ (brickColor k).2.2 ∧ (brickColor k).2.2 ≤ 255 := by
  unfold brickColor
  by_cases hk : k % 2 = 0 <;> simp [hk]

end BufferLemmas

/-- C8: on every tick in every state, the per-tick entry point writes the
output buffer in full: exactly one RGB triple per catalog point (the buffer
is never resized), and every written channel lies in `[0, 255]`.  The
hypothesis records the spec-modelled contract of the external HSV→RGB
conversion: its output channels lie in `[0, 1]`. -/
theorem frame_buffer_safety (cfg : Config) (orc : Oracle) (s : GameState)
    (hrgb : ∀ j, 0 ≤ (orc.winRGB j).1 ∧ (orc.winRGB j).1 ≤ 1 ∧
      0 ≤ (orc.winRGB j).2.1 ∧ (orc.winRGB j).2.1 ≤ 1 ∧
      0 ≤ (orc.winRGB j).2.2 ∧ (orc.winRGB j).2.2 ≤ 1) :
    (renderNextFrameBuf cfg orc s).length = cfg.numPoints ∧
    ∀ e ∈ renderNextFrameBuf cfg orc s,
      0 ≤ e.1 ∧ e.1 ≤ 255 ∧ 0 ≤ e.2.1 ∧ e.2.1 ≤ 255 ∧ 0 ≤ e.2.2 ∧ e.2.2 ≤ 255 := by
  have hloss : ∀ n, (lossBuf cfg n).length = cfg.numPoints ∧
      ∀ e ∈ lossBuf cfg n,
        0 ≤ e.1 ∧ e.1 ≤ 255 ∧ 0 ≤ e.2.1 ∧ e.2.1 ≤ 255 ∧ 0 ≤ e.2.2 ∧ e.2.2 ≤ 255 := by
    intro n
    constructor
    · unfold lossBuf
      rw [List.length_map, List.length_range]
    · intro e he
      unfold lossBuf at he
      obtain ⟨j, -, rfl⟩ := List.mem_map.mp he
      obtain ⟨hb0, hb1⟩ := clip_bounds (1 - ((n : ℚ) / 120 * (1 + 0.15) -
        (1 - (cfg.z j - cfg.z_lo) / (cfg.z_hi - cfg.z_lo))) / 0.15)
      have hc : 0 ≤ 255 * lossBrightness cfg n j ∧ 255 * lossBrightness cfg n j ≤ 255 := by
        unfold lossBrightness
        constructor <;> nlinarith [hb0, hb1]
      obtain ⟨hl0, hl255⟩ := toUint8_bounds hc.1 hc.2
      exact ⟨hl0, hl255, hl0, hl255, hl0, hl255⟩
  have hwin : (winBuf cfg orc).length = cfg.numPoints ∧
      ∀ e ∈ winBuf cfg orc,
        0 ≤ e.1 ∧ e.1 ≤ 255 ∧ 0 ≤ e.2.1 ∧ e.2.1 ≤ 255 ∧ 0 ≤ e.2.2 ∧ e.2.2 ≤ 255 := by
    constructor
    · unfold winBuf
      rw [List.length_map, List.length_range]
    · intro e he
      unfold winBuf at he
      obtain ⟨j, -, rfl⟩ := List.mem_map.mp he
      obtain ⟨h1, h2, h3, h4, h5, h6⟩ := hrgb j
      obtain ⟨ha, hb⟩ := toUint8_bounds (by nlinarith : (0:ℚ) ≤ (orc.winRGB j).1 * 255)
        (by nlinarith : (orc.winRGB j).1 * 255 ≤ 255)
      obtain ⟨hc, hd⟩ := toUint8_bounds (by nlinarith : (0:ℚ) ≤ (orc.winRGB j).2.1 * 255)
        (by nlinarith : (orc.winRGB j).2.1 * 255 ≤ 255)
      obtain ⟨he', hf⟩ := toUint8_bounds (by nlinarith : (0:ℚ) ≤ (orc.winRGB j).2.2 * 255)
        (by nlinarith : (orc.winRGB j).2.2 * 255 ≤ 255)
      exact ⟨ha, hb, hc, hd, he', hf⟩
  have hplay : ∀ t, (playingBuf cfg orc t).length = cfg.numPoints ∧
      ∀ e ∈ playingBuf cfg orc t,
        0 ≤ e.1 ∧ e.1 ≤ 255 ∧ 0 ≤ e.2.1 ∧ e.2.1 ≤ 255 ∧ 0 ≤ e.2.2 ∧ e.2.2 ≤ 255 := by
    intro t
    constructor
    · unfold playingBuf
      rw [length_maskStore, length_maskStore, length_drawBricks, List.length_replicate]
    · intro e he
      unfold playingBuf at he
      rcases mem_maskStore _ _ _ e he with rfl | he2
      · norm_num [ballColor]
      · rcases mem_maskStore _ _ _ e he2 with rfl | he3
        · norm_num [paddleColor]
        · rcases mem_drawBricks _ _ _ e he3 with ⟨k, rfl⟩ | he4
          · exact brickColor_bounds k
          · rw [List.eq_of_mem_replicate he4]
            norm_num [bgColor]
  unfold renderNextFrameBuf
  by_cases h1 : s.lost = true ∧ s.loss_animation_frames + 1 < 120
  · rw [if_pos h1]
    exact hloss _
  · rw [if_neg h1]
    by_cases h2 : s.lost = false ∧ s.won = true ∧ s.win_animation_frames + 1 < 90
    · rw [if_pos h2]
      exact hwin
    · rw [if_neg h2]
      exact hplay _

/-- Closed witness for `frame_buffer_safety` at a concrete configuration,
oracle and state. -/
theorem frame_buffer_safety_witness :
    (∀ j, 0 ≤ (orcW.winRGB j).1 ∧ (orcW.winRGB j).1 ≤ 1 ∧
      0 ≤ (orcW.winRGB j).2.1 ∧ (orcW.winRGB j).2.1 ≤ 1 ∧
      0 ≤ (orcW.winRGB j).2.2 ∧ (orcW.winRGB j).2.2 ≤ 1) ∧
    ((renderNextFrameBuf cfgW orcW stW).length = cfgW.numPoints ∧
    ∀ e ∈ renderNextFrameBuf cfgW orcW stW,
      0 ≤ e.1 ∧ e.1 ≤ 255 ∧ 0 ≤ e.2.1 ∧ e.2.1 ≤ 255 ∧ 0 ≤ e.2.2 ∧ e.2.2 ≤ 255) := by
  have h : ∀ j, 0 ≤ (orcW.winRGB j).1 ∧ (orcW.winRGB j).1 ≤ 1 ∧
      0 ≤ (orcW.winRGB j).2.1 ∧ (orcW.winRGB j).2.1 ≤ 1 ∧
      0 ≤ (orcW.winRGB j).2.2 ∧ (orcW.winRGB j).2.2 ≤ 1 := by
    intro j
    norm_num [orcW]
  exact ⟨h, frame_buffer_safety cfgW orcW stW h⟩
